import Mathlib

/-!
Verification of the NoBorders window-state engine (`fullscreen.py`).

We shallowly embed the engine: the style/geometry cache, the fullscreen
membership set, the pid-keyed reapplication preference table, and the
operations `set_borderless_fullscreen`, `revert_to_windowed`,
`enum_windows`, `App.update_windows_lists` and
`App.update_windows_periodically`.

Modelling conventions:
* Window handles and process ids are `Nat`; style bitmasks are `Nat`
  (Python ints are unbounded and only bitwise-AND with a complement is
  performed, which on non-negative ints is exactly `Nat.ldiff`).
* Python dicts are association lists in insertion order: update-in-place
  on upsert of an existing key, append for a new key.
* The Python `set` `fullscreen_hwnds` is a duplicate-free list; only
  membership matters.
* Fallible OS calls (`GetWindowLong`, `SetWindowLong`, `SetWindowPos`,
  `GetWindowThreadProcessId`, `psutil.Process(...).name()`) are modelled
  through the `OS` record (missing lookup = the call raises) plus an
  explicit per-call fault schedule `Faults`, since the Python code
  catches or propagates the corresponding exceptions at specific points.
* An operation that raises returns the state as mutated so far (Python
  mutates the module-level dicts in place, so partial mutations survive
  a propagated exception).
-/

/-- Screen-space rectangle `(left, top, right, bottom)`, as returned by
`GetWindowRect` / stored in monitor rects. -/
structure Rect where
  left : Int
  top : Int
  right : Int
  bottom : Int
deriving DecidableEq, Repr

/-- The OS-side state of one live window: style bits, extended style
bits, and bounding rectangle. -/
structure WinState where
  style : Nat
  exstyle : Nat
  rect : Rect
deriving DecidableEq, Repr

/-- One record produced by `enum_windows` (class `WindowInfo` after the
callback's filtering: `pid` is resolved, `process_name` normalised). -/
structure WRecord where
  hwnd : Nat
  pid : Nat
  process_name : String
  title : String
deriving DecidableEq, Repr

/-- Raw OS view of one top-level window as seen by the `EnumWindows`
callback. `title` is what the callback's own `GetWindowText` call
(line 93) returns; `titleRes2` is the outcome of the second, separate
`GetWindowText` call made inside `WindowInfo.get_process_info`
(line 64), which may raise (`none`, degraded to `""` by the
`except` at lines 65-66) or return a different string than the first
read (the window can change in between). `pidRes` is the outcome of
`GetWindowThreadProcessId` (`none` = the call raises) and `nameRes`
that of `psutil.Process(pid).name()`
(`none` = `NoSuchProcess`/`AccessDenied`). -/
structure RawWin where
  hwnd : Nat
  visible : Bool
  title : String
  titleRes2 : Option String
  pidRes : Option Nat
  nameRes : Option String
deriving DecidableEq, Repr

/-- The ambient OS state visible to the engine during one operation or
one reconciliation pass: live windows keyed by handle, the
handle-to-pid map (`GetWindowThreadProcessId`; a missing key means the
call raises), the pid-to-name map (`psutil`; a missing key means
`NoSuchProcess`), and the set of live pids (`psutil.pid_exists`). -/
structure OS where
  windows : List (Nat × WinState)
  hwndPid : List (Nat × Nat)
  pidName : List (Nat × String)
  livePids : List Nat
deriving DecidableEq, Repr

/-- The engine's shared mutable state: `window_style_cache`
(hwnd ↦ (style, exstyle, rect)), `last_fullscreen_by_pid`
(pid ↦ (process_name, monitor_rect_or_None)), and the App's
`fullscreen_hwnds` membership set. -/
structure Shared where
  window_style_cache : List (Nat × WinState)
  last_fullscreen_by_pid : List (Nat × (String × Option Rect))
  fullscreen_hwnds : List Nat
deriving DecidableEq, Repr

/-- Fault schedule for one `set_borderless_fullscreen` call: whether the
initial snapshot read raises, whether the re-read before the chrome
strip raises, whether the first `SetWindowLong` call (GWL_STYLE,
line 166) raises, whether the second `SetWindowLong` call (GWL_EXSTYLE,
line 167) raises — the two writes are separately fallible, and when the
second raises the style word has already been written — and whether
`SetWindowPos` raises. -/
structure Faults where
  snapReadFail : Bool
  stripReadFail : Bool
  styleWriteFail : Bool
  exstyleWriteFail : Bool
  posWriteFail : Bool
deriving DecidableEq, Repr

/-- The all-succeed fault schedule. -/
def noFaults : Faults := ⟨false, false, false, false, false⟩

/-- Fault schedule for one `revert_to_windowed` call (its OS write
failures are caught internally and logged). The two `SetWindowLong`
calls at lines 203 and 205 sit in one `try` block: if the first raises
neither style word is written, if the second raises the style word has
already been written. -/
structure RFaults where
  styleWriteFail : Bool
  exstyleWriteFail : Bool
  posWriteFail : Bool
deriving DecidableEq, Repr

/-- The all-succeed fault schedule for revert. -/
def noRFaults : RFaults := ⟨false, false, false⟩

/-- Exceptions a transform can propagate: the snapshot read raising
(`fullscreen.py` line 141), the strip-phase re-read raising (line 161),
the first `SetWindowLong` raising (line 166), the second `SetWindowLong`
raising (line 167, after the style word landed), `SetWindowPos` raising
(line 179). -/
inductive TErr where
  | snapReadFailed
  | stripReadFailed
  | styleWriteFailed
  | exstyleWriteFailed
  | posWriteFailed
deriving DecidableEq, Repr

/-- Result of one transform call: the OS and shared state as mutated so
far, and `some e` when the call raised `e` (the Python function mutates
global dicts in place, so mutations made before a raise persist). -/
structure TResult where
  os : OS
  sh : Shared
  err : Option TErr
deriving DecidableEq, Repr

/-! ### Association-list (Python dict) helpers -/

/-- Python dict `m.get(k)`. -/
def lookupA {α : Type} (k : Nat) : List (Nat × α) → Option α
  | [] => none
  | (k', v) :: rest => if k' = k then some v else lookupA k rest

/-- Python dict assignment `m[k] = v`: replace in place if the key exists,
append otherwise (insertion order preserved). -/
def insertA {α : Type} (k : Nat) (v : α) : List (Nat × α) → List (Nat × α)
  | [] => [(k, v)]
  | (k', v') :: rest =>
      if k' = k then (k', v) :: rest else (k', v') :: insertA k v rest

/-- Python dict deletion `del m[k]` (no-op when absent, as the code guards
with `in` / catches `KeyError`). -/
def eraseA {α : Type} (k : Nat) : List (Nat × α) → List (Nat × α)
  | [] => []
  | (k', v') :: rest =>
      if k' = k then rest else (k', v') :: eraseA k rest

/-- Python set `s.add(x)`, on a duplicate-free list model. -/
def addSet (x : Nat) (s : List Nat) : List Nat :=
  if x ∈ s then s else s ++ [x]

/-! ### Style constants (`fullscreen.py` lines 34-47) -/

def WS_BORDER : Nat := 0x00800000
def WS_DLGFRAME : Nat := 0x00400000
def WS_CAPTION : Nat := WS_BORDER ||| WS_DLGFRAME
def WS_SYSMENU : Nat := 0x00080000
def WS_THICKFRAME : Nat := 0x00040000
def WS_MINIMIZEBOX : Nat := 0x00020000
def WS_MAXIMIZEBOX : Nat := 0x00010000

def WS_EX_DLGMODALFRAME : Nat := 0x00000001
def WS_EX_CLIENTEDGE : Nat := 0x00000200
def WS_EX_STATICEDGE : Nat := 0x00020000

/-- The style bits cleared at line 163:
`WS_CAPTION | WS_THICKFRAME | WS_MINIMIZEBOX | WS_MAXIMIZEBOX | WS_SYSMENU`. -/
def styleChromeMask : Nat :=
  WS_CAPTION ||| WS_THICKFRAME ||| WS_MINIMIZEBOX ||| WS_MAXIMIZEBOX ||| WS_SYSMENU

/-- The extended-style bits cleared at line 164:
`WS_EX_DLGMODALFRAME | WS_EX_CLIENTEDGE | WS_EX_STATICEDGE`. -/
def exstyleChromeMask : Nat :=
  WS_EX_DLGMODALFRAME ||| WS_EX_CLIENTEDGE ||| WS_EX_STATICEDGE

/-- Line 163: `new_style &= ~( ... )`. On a non-negative Python int,
and-with-complement clears exactly the mask bits while leaving all
other bits alone, which on `Nat` is `s ^^^ (s &&& mask)` (the bits of
`s` inside the mask are flipped off, the rest untouched). -/
def stripStyle (s : Nat) : Nat := s ^^^ (s &&& styleChromeMask)

/-- Line 164: `new_exstyle &= ~( ... )`. -/
def stripExStyle (e : Nat) : Nat := e ^^^ (e &&& exstyleChromeMask)

/-! ### OS write primitives -/

/-- Model of one `SetWindowLong(hwnd, GWL_STYLE, s)` call: update a
live window's style word (no-op when the window is gone, used on the
best-effort paths). -/
def setWinStyle (os : OS) (hwnd : Nat) (s : Nat) : OS :=
  match lookupA hwnd os.windows with
  | none => os
  | some ws =>
      { os with windows := insertA hwnd { ws with style := s } os.windows }

/-- Model of one `SetWindowLong(hwnd, GWL_EXSTYLE, e)` call: update a
live window's extended-style word. -/
def setWinExStyle (os : OS) (hwnd : Nat) (e : Nat) : OS :=
  match lookupA hwnd os.windows with
  | none => os
  | some ws =>
      { os with windows := insertA hwnd { ws with exstyle := e } os.windows }

/-- Model of `SetWindowPos(hwnd, HWND_TOP, left, top, width, height, ...)`:
the window's bounding rectangle becomes
`(left, top, left+width, top+height)` (no-op when the window is gone). -/
def setWinRect (os : OS) (hwnd : Nat) (left top width height : Int) : OS :=
  match lookupA hwnd os.windows with
  | none => os
  | some ws =>
      { os with windows :=
          insertA hwnd { ws with rect := ⟨left, top, left + width, top + height⟩ } os.windows }

/-! ### `set_borderless_fullscreen` (lines 124-187) -/

/-- Lines 149-152: resolve a pid to a process name via psutil; a
`NoSuchProcess`/`AccessDenied` failure yields `"Unknown"`. -/
def resolveName (os : OS) (pid : Nat) : String :=
  match lookupA pid os.pidName with
  | some n => n
  | none => "Unknown"

/-- Lines 143-154 continued: when the pid is truthy, upsert
`last_fullscreen_by_pid[pid] = (pname, monitor_rect)`. -/
def xformPidStep (os : OS) (sh : Shared) (hwnd : Nat) (monitor_rect : Option Rect) : Shared :=
  match lookupA hwnd os.hwndPid with
  | none => sh
  | some pid =>
      if pid = 0 then sh  -- Python `if pid:` treats pid 0 as falsy
      else
        { sh with last_fullscreen_by_pid :=
            insertA pid (resolveName os pid, monitor_rect) sh.last_fullscreen_by_pid }

/-- Lines 156-187: re-read the style words (raising aborts the call),
clear the chrome bits, write the new style word and then the new
extended-style word with two separately fallible `SetWindowLong` calls
(if the first raises nothing is written; if the second raises the style
word has already landed), compute the target rectangle from
`monitor_rect` or the primary screen metrics `(primW, primH)` at
origin, and reposition the window. -/
def xformStrip (primW primH : Int) (f : Faults) (os : OS) (sh : Shared)
    (hwnd : Nat) (monitor_rect : Option Rect) : TResult :=
  if f.stripReadFail then ⟨os, sh, some .stripReadFailed⟩
  else
    match lookupA hwnd os.windows with
    | none => ⟨os, sh, some .stripReadFailed⟩
    | some ws =>
        let new_style := stripStyle ws.style
        let new_exstyle := stripExStyle ws.exstyle
        if f.styleWriteFail then ⟨os, sh, some .styleWriteFailed⟩
        else
          let os := setWinStyle os hwnd new_style
          if f.exstyleWriteFail then ⟨os, sh, some .exstyleWriteFailed⟩
          else
            let os := setWinExStyle os hwnd new_exstyle
            let ltwh : Int × Int × Int × Int :=
              match monitor_rect with
              | some r => (r.left, r.top, r.right - r.left, r.bottom - r.top)
              | none => (0, 0, primW, primH)
            if f.posWriteFail then ⟨os, sh, some .posWriteFailed⟩
            else ⟨setWinRect os hwnd ltwh.1 ltwh.2.1 ltwh.2.2.1 ltwh.2.2.2, sh, none⟩

/-- Transform `set_borderless_fullscreen(hwnd, monitor_rect)` (lines 124-187).
If the handle is not yet cached, read and cache its current style words
and rectangle (a raising read aborts the call with nothing mutated);
then record the pid preference, then strip the chrome and reposition.
The membership set is *not* touched here — callers add the handle on
success. -/
def set_borderless_fullscreen (primW primH : Int) (f : Faults) (os : OS) (sh : Shared)
    (hwnd : Nat) (monitor_rect : Option Rect) : TResult :=
  match lookupA hwnd sh.window_style_cache with
  | some _ =>
      let sh := xformPidStep os sh hwnd monitor_rect
      xformStrip primW primH f os sh hwnd monitor_rect
  | none =>
      if f.snapReadFail then ⟨os, sh, some .snapReadFailed⟩
      else
        match lookupA hwnd os.windows with
        | none => ⟨os, sh, some .snapReadFailed⟩
        | some ws =>
            let sh := { sh with window_style_cache := insertA hwnd ws sh.window_style_cache }
            let sh := xformPidStep os sh hwnd monitor_rect
            xformStrip primW primH f os sh hwnd monitor_rect

/-! ### `revert_to_windowed` (lines 189-233) -/

/-- Revert `revert_to_windowed(hwnd)` (lines 189-233). No-op when the handle is
not cached. Otherwise pop the snapshot, best-effort re-apply the stored
style words and rectangle (failures are caught and logged), and delete
the `last_fullscreen_by_pid` entry for the handle's owning pid when it
resolves and is truthy. The function never touches `fullscreen_hwnds`.
`revertWrites` is the best-effort OS write phase (lines 201-225). -/
def revertWrites (f : RFaults) (os : OS) (hwnd : Nat) (ws : WinState) : OS :=
  let os :=
    if f.styleWriteFail then os  -- first SetWindowLong raises: neither word written
    else
      let os := setWinStyle os hwnd ws.style
      if f.exstyleWriteFail then os  -- second raises: style word already written
      else setWinExStyle os hwnd ws.exstyle
  if f.posWriteFail then os
  else setWinRect os hwnd ws.rect.left ws.rect.top
    (ws.rect.right - ws.rect.left) (ws.rect.bottom - ws.rect.top)

/-- Lines 227-233: delete the preference entry for the handle's owning
pid, when the pid resolves and is truthy (failures caught). -/
def revertPidStep (os : OS) (sh : Shared) (hwnd : Nat) : Shared :=
  match lookupA hwnd os.hwndPid with
  | none => sh
  | some pid =>
      if pid = 0 then sh
      else { sh with last_fullscreen_by_pid := eraseA pid sh.last_fullscreen_by_pid }

def revert_to_windowed (f : RFaults) (os : OS) (sh : Shared) (hwnd : Nat) : OS × Shared :=
  match lookupA hwnd sh.window_style_cache with
  | none => (os, sh)
  | some ws =>
      let sh := { sh with window_style_cache := eraseA hwnd sh.window_style_cache }
      let os := revertWrites f os hwnd ws
      (os, revertPidStep os sh hwnd)

/-! ### `enum_windows` (lines 82-114) and `WindowInfo` (lines 54-76) -/

/-- The skip condition at line 94: `if not title or title.isspace()`.
Python's `isspace` is true iff the string is non-empty and all
whitespace, so a window is skipped exactly when every character of its
title is whitespace (vacuously for the empty title). -/
def titleBlank (t : String) : Bool := t.data.all Char.isWhitespace

/-- Build the `WindowInfo` record for a raw window with a resolved pid.
The record's title comes from the second `GetWindowText` call inside
`WindowInfo.get_process_info` (line 64), degraded to `""` when it
raises (lines 65-66) — not from the title the callback checked at
line 93. Psutil failure degrades the name to `"Unknown"`
(lines 69-73), and the callback replaces an empty resolved name by
`"Unknown"` (lines 101-102). -/
def mkRecord (r : RawWin) (pid : Nat) : WRecord :=
  let pname :=
    match r.nameRes with
    | some n => if n = "" then "Unknown" else n
    | none => "Unknown"
  let title2 :=
    match r.titleRes2 with
    | some t => t
    | none => ""
  ⟨r.hwnd, pid, pname, title2⟩

/-- Enumeration `enum_windows()` (lines 82-114): keep visible windows with a
non-blank title, drop any window whose `GetWindowThreadProcessId`
raises (`wi.pid is None`, line 99), and normalise the process name. -/
def enum_windows : List RawWin → List WRecord
  | [] => []
  | r :: rest =>
      if r.visible = false then enum_windows rest
      else if titleBlank r.title then enum_windows rest
      else
        match r.pidRes with
        | none => enum_windows rest
        | some pid => mkRecord r pid :: enum_windows rest

/-! ### `App.update_windows_lists` (lines 461-534) -/

/-- The classification test at line 507:
`w.hwnd in self.fullscreen_hwnds and w.hwnd in window_style_cache`. -/
def isTracked (sh : Shared) (w : WRecord) : Bool :=
  decide (w.hwnd ∈ sh.fullscreen_hwnds) && (lookupA w.hwnd sh.window_style_cache).isSome

/-- Inner reapply loop (lines 488-499): for each enumerated window of
one pid, re-read the preference entry, and when the stored name is
truthy and equals the record's process name and the handle is neither
in the membership set nor cache-keyed, call
`set_borderless_fullscreen`; on success add the handle to the
membership set, on an exception fall through to the next candidate
(mutations made by the failed call persist). `reapplyStep` is the loop
body for one candidate window. -/
def reapplyStep (primW primH : Int) (f : Faults) (pid : Nat) (w : WRecord)
    (st : OS × Shared) : OS × Shared :=
  match lookupA pid st.2.last_fullscreen_by_pid with
  | none => st
  | some (expected_name, monitor_rect) =>
      if expected_name ≠ "" ∧ expected_name = w.process_name then
        if w.hwnd ∉ st.2.fullscreen_hwnds ∧
            lookupA w.hwnd st.2.window_style_cache = none then
          let r := set_borderless_fullscreen primW primH f st.1 st.2 w.hwnd monitor_rect
          match r.err with
          | none =>
              (r.os, { r.sh with fullscreen_hwnds := addSet w.hwnd r.sh.fullscreen_hwnds })
          | some _ => (r.os, r.sh)
        else st
      else st

/-- The inner loop over `pid_to_windows[pid]`; `faultOf` gives the
fault schedule of the transform attempted on each handle. -/
def reapplyWins (primW primH : Int) (faultOf : Nat → Faults) (pid : Nat) :
    List WRecord → OS × Shared → OS × Shared
  | [], st => st
  | w :: rest, st =>
      reapplyWins primW primH faultOf pid rest
        (reapplyStep primW primH (faultOf w.hwnd) pid w st)

/-- Outer reapply loop (lines 483-502): iterate over a snapshot of the
preference table's keys; for each pid process the enumerated windows of
that pid (`pid_to_windows[pid]`, in enumeration order). -/
def reapplyPids (primW primH : Int) (faultOf : Nat → Faults) (windows : List WRecord) :
    List Nat → OS × Shared → OS × Shared
  | [], st => st
  | pid :: rest, st =>
      reapplyPids primW primH faultOf windows rest
        (reapplyWins primW primH faultOf pid (windows.filter (fun w => w.pid = pid)) st)

/-- Garbage collection (lines 514-534): handles tracked as fullscreen
but absent from the new fullscreen partition are closed — their cache
entries are deleted and they leave the membership set; preference
entries whose pid no longer exists are deleted. -/
def gcPass (os : OS) (sh : Shared) (new_hwnds : List Nat) : Shared :=
  let closed := sh.fullscreen_hwnds.filter (fun h => decide (h ∉ new_hwnds))
  { window_style_cache :=
      sh.window_style_cache.filter (fun kv => decide (kv.1 ∉ closed)),
    last_fullscreen_by_pid :=
      sh.last_fullscreen_by_pid.filter (fun kv => decide (kv.1 ∈ os.livePids)),
    fullscreen_hwnds := sh.fullscreen_hwnds.filter (fun h => decide (h ∈ new_hwnds)) }

/-- Result of one reconciliation pass: mutated OS and shared state plus
the published windowed/fullscreen partitions. -/
structure PassResult where
  os : OS
  sh : Shared
  windowed : List WRecord
  fullscreen : List WRecord
deriving Repr

/-- Reconciliation `App.update_windows_lists(windows)` (lines 461-534, the engine
part): auto-reapply, then partition the enumerated windows by the
tracking test (the loop at lines 505-512 appends in enumeration order,
i.e. filters), then garbage-collect; `new_hwnds` is the set of handles
classified fullscreen. -/
def update_windows_lists (primW primH : Int) (faultOf : Nat → Faults)
    (windows : List WRecord) (os : OS) (sh : Shared) : PassResult :=
  let pids := sh.last_fullscreen_by_pid.map (fun kv => kv.1)
  let st1 := reapplyPids primW primH faultOf windows pids (os, sh)
  let new_fullscreen := windows.filter (fun w => isTracked st1.2 w)
  let new_windowed := windows.filter (fun w => !isTracked st1.2 w)
  let new_hwnds := new_fullscreen.map (fun w => w.hwnd)
  ⟨st1.1, gcPass st1.1 st1.2 new_hwnds, new_windowed, new_fullscreen⟩

/-! ### `App.update_windows_periodically` (lines 586-590) -/

/-- One timer tick: returns whether `refresh_windows` is invoked on
this tick, and the delay in milliseconds until the next tick
(`delay = 3000 if not self.is_minimized else 10000`). -/
def update_windows_periodically (is_minimized : Bool) : Bool × Nat :=
  (!is_minimized, if is_minimized then 10000 else 3000)

/-- The rectangle written by the `SetWindowPos` call at lines 169-187:
the given monitor rect when present, else the primary display metrics
at the origin; `SetWindowPos` receives `(left, top, width, height)`, so
the resulting bounding rectangle is `(left, top, left+width, top+height)`. -/
def targetRect (p q : Int) : Option Rect → Rect
  | some r => ⟨r.left, r.top, r.left + (r.right - r.left), r.top + (r.bottom - r.top)⟩
  | none => ⟨0, 0, 0 + p, 0 + q⟩

/-- The window state a successful transform leaves behind:
chrome-stripped style words and the target rectangle. -/
def strippedState (p q : Int) (mr : Option Rect) (ws : WinState) : WinState :=
  ⟨stripStyle ws.style, stripExStyle ws.exstyle, targetRect p q mr⟩

/-! ### Association-list lemmas -/

theorem lookupA_insertA_self {α : Type} (k : Nat) (v : α) (m : List (Nat × α)) :
    lookupA k (insertA k v m) = some v := by
  induction m with
  | nil => simp [insertA, lookupA]
  | cons kv rest ih =>
      obtain ⟨k', v'⟩ := kv
      by_cases h : k' = k
      · simp [insertA, lookupA, h]
      · simp [insertA, lookupA, h, ih]

theorem lookupA_insertA_ne {α : Type} {k k' : Nat} (h : k ≠ k') (v : α)
    (m : List (Nat × α)) : lookupA k (insertA k' v m) = lookupA k m := by
  induction m with
  | nil => simp [insertA, lookupA, Ne.symm h]
  | cons kv rest ih =>
      obtain ⟨k'', v''⟩ := kv
      by_cases h2 : k'' = k'
      · subst h2
        simp [insertA, lookupA, Ne.symm h]
      · by_cases h3 : k'' = k
        · subst h3
          simp [insertA, lookupA, h2]
        · simp [insertA, lookupA, h2, h3, ih]

theorem lookupA_eraseA_ne {α : Type} {k k' : Nat} (h : k ≠ k')
    (m : List (Nat × α)) : lookupA k (eraseA k' m) = lookupA k m := by
  induction m with
  | nil => simp [eraseA]
  | cons kv rest ih =>
      obtain ⟨k'', v''⟩ := kv
      by_cases h2 : k'' = k'
      · subst h2
        simp [eraseA, lookupA, Ne.symm h]
      · by_cases h3 : k'' = k
        · subst h3
          simp [eraseA, lookupA, h2]
        · simp [eraseA, lookupA, h2, h3, ih]

theorem lookupA_eq_none_of_not_mem_keys {α : Type} {k : Nat} {m : List (Nat × α)}
    (h : k ∉ m.map Prod.fst) : lookupA k m = none := by
  induction m with
  | nil => rfl
  | cons kv rest ih =>
      simp only [List.map_cons, List.mem_cons] at h
      push_neg at h
      obtain ⟨k', v'⟩ := kv
      simp only [lookupA]
      rw [if_neg (fun e => h.1 e.symm)]
      exact ih h.2

theorem lookupA_eraseA_self {α : Type} (k : Nat) (m : List (Nat × α))
    (hm : (m.map Prod.fst).Nodup) : lookupA k (eraseA k m) = none := by
  induction m with
  | nil => rfl
  | cons kv rest ih =>
      obtain ⟨k', v'⟩ := kv
      simp only [List.map_cons, List.nodup_cons] at hm
      by_cases h2 : k' = k
      · subst h2
        simp only [eraseA, if_pos rfl]
        exact lookupA_eq_none_of_not_mem_keys hm.1
      · simp [eraseA, lookupA, h2, ih hm.2]

theorem lookupA_filter_key {α : Type} (q : Nat → Bool) (k : Nat) (m : List (Nat × α)) :
    lookupA k (m.filter (fun kv => q kv.1)) = if q k then lookupA k m else none := by
  induction m with
  | nil => cases hq : q k <;> simp [lookupA, hq]
  | cons kv rest ih =>
      obtain ⟨k', v'⟩ := kv
      by_cases h2 : k' = k
      · subst h2
        cases hq : q k' <;> simp [List.filter, lookupA, hq, ih]
      · cases hq : q k' <;> simp [List.filter, lookupA, hq, h2, ih]

theorem lookupA_isSome_iff_mem_keys {α : Type} {k : Nat} {m : List (Nat × α)} :
    (lookupA k m).isSome = true ↔ k ∈ m.map Prod.fst := by
  induction m with
  | nil => simp [lookupA]
  | cons kv rest ih =>
      obtain ⟨k', v'⟩ := kv
      by_cases h2 : k' = k
      · subst h2; simp [lookupA]
      · simp only [lookupA, List.map_cons, List.mem_cons]
        rw [if_neg h2, ih]
        constructor
        · exact fun hm => Or.inr hm
        · rintro (rfl | hm)
          · exact absurd rfl h2
          · exact hm

theorem mem_addSet {x y : Nat} {s : List Nat} :
    x ∈ addSet y s ↔ x = y ∨ x ∈ s := by
  unfold addSet
  by_cases h : y ∈ s
  · simp only [if_pos h]
    constructor
    · exact fun hx => Or.inr hx
    · rintro (rfl | hx)
      · exact h
      · exact hx
  · simp [if_neg h, or_comm]

theorem mem_addSet_of_mem {x y : Nat} {s : List Nat} (h : x ∈ s) :
    x ∈ addSet y s := mem_addSet.mpr (Or.inr h)

theorem self_mem_addSet (y : Nat) (s : List Nat) : y ∈ addSet y s :=
  mem_addSet.mpr (Or.inl rfl)

/-! ### Structural lemmas: the transform -/

theorem insertA_insertA {α : Type} (k : Nat) (v1 v2 : α) (m : List (Nat × α)) :
    insertA k v2 (insertA k v1 m) = insertA k v2 m := by
  induction m with
  | nil => simp [insertA]
  | cons kv rest ih =>
      obtain ⟨k', v'⟩ := kv
      by_cases h : k' = k
      · simp [insertA, h]
      · simp [insertA, h, ih]

theorem targetRect_some (p q : Int) (r : Rect) : targetRect p q (some r) = r := by
  cases r
  simp [targetRect]

theorem xformPidStep_cache (os : OS) (sh : Shared) (h : Nat) (mr : Option Rect) :
    (xformPidStep os sh h mr).window_style_cache = sh.window_style_cache := by
  unfold xformPidStep
  cases lookupA h os.hwndPid with
  | none => rfl
  | some pid => by_cases hp : pid = 0 <;> simp [hp]

theorem xformPidStep_mem (os : OS) (sh : Shared) (h : Nat) (mr : Option Rect) :
    (xformPidStep os sh h mr).fullscreen_hwnds = sh.fullscreen_hwnds := by
  unfold xformPidStep
  cases lookupA h os.hwndPid with
  | none => rfl
  | some pid => by_cases hp : pid = 0 <;> simp [hp]

theorem xformPidStep_last_cases (os : OS) (sh : Shared) (h : Nat) (mr : Option Rect) :
    (xformPidStep os sh h mr).last_fullscreen_by_pid = sh.last_fullscreen_by_pid ∨
    ∃ pid, lookupA h os.hwndPid = some pid ∧ pid ≠ 0 ∧
      (xformPidStep os sh h mr).last_fullscreen_by_pid =
        insertA pid (resolveName os pid, mr) sh.last_fullscreen_by_pid := by
  unfold xformPidStep
  cases hp : lookupA h os.hwndPid with
  | none => exact Or.inl rfl
  | some pid =>
      by_cases h0 : pid = 0
      · simp [h0]
      · exact Or.inr ⟨pid, rfl, h0, by simp [h0]⟩

theorem xformStrip_sh (p q : Int) (f : Faults) (os : OS) (sh : Shared)
    (h : Nat) (mr : Option Rect) : (xformStrip p q f os sh h mr).sh = sh := by
  obtain ⟨f1, f2, f3, f4, f5⟩ := f
  cases f2 <;> cases f3 <;> cases f4 <;> cases f5 <;>
    cases hw : lookupA h os.windows <;>
      simp [xformStrip, hw]

theorem setWinStyle_lookup_ne {os : OS} {h k : Nat} (hk : k ≠ h) (s : Nat) :
    lookupA k (setWinStyle os h s).windows = lookupA k os.windows := by
  unfold setWinStyle
  cases lookupA h os.windows with
  | none => rfl
  | some cur => simp [lookupA_insertA_ne hk]

theorem setWinExStyle_lookup_ne {os : OS} {h k : Nat} (hk : k ≠ h) (e : Nat) :
    lookupA k (setWinExStyle os h e).windows = lookupA k os.windows := by
  unfold setWinExStyle
  cases lookupA h os.windows with
  | none => rfl
  | some cur => simp [lookupA_insertA_ne hk]

theorem setWinRect_lookup_ne {os : OS} {h k : Nat} (hk : k ≠ h) (l t w ht : Int) :
    lookupA k (setWinRect os h l t w ht).windows = lookupA k os.windows := by
  unfold setWinRect
  cases lookupA h os.windows with
  | none => rfl
  | some cur => simp [lookupA_insertA_ne hk]

theorem setWinStyle_isSome {os : OS} {k : Nat} (h s : Nat)
    (hs : (lookupA k os.windows).isSome) :
    (lookupA k (setWinStyle os h s).windows).isSome := by
  unfold setWinStyle
  cases lookupA h os.windows with
  | none => exact hs
  | some cur =>
      by_cases hk : k = h
      · subst hk; simp [lookupA_insertA_self]
      · simp [lookupA_insertA_ne hk, hs]

theorem setWinExStyle_isSome {os : OS} {k : Nat} (h e : Nat)
    (hs : (lookupA k os.windows).isSome) :
    (lookupA k (setWinExStyle os h e).windows).isSome := by
  unfold setWinExStyle
  cases lookupA h os.windows with
  | none => exact hs
  | some cur =>
      by_cases hk : k = h
      · subst hk; simp [lookupA_insertA_self]
      · simp [lookupA_insertA_ne hk, hs]

theorem setWinRect_isSome {os : OS} {k : Nat} (h : Nat) (l t w ht : Int)
    (hs : (lookupA k os.windows).isSome) :
    (lookupA k (setWinRect os h l t w ht).windows).isSome := by
  unfold setWinRect
  cases lookupA h os.windows with
  | none => exact hs
  | some cur =>
      by_cases hk : k = h
      · subst hk; simp [lookupA_insertA_self]
      · simp [lookupA_insertA_ne hk, hs]

theorem setWinStyle_maps (os : OS) (h s : Nat) :
    (setWinStyle os h s).hwndPid = os.hwndPid ∧
    (setWinStyle os h s).pidName = os.pidName ∧
    (setWinStyle os h s).livePids = os.livePids := by
  unfold setWinStyle
  cases lookupA h os.windows <;> exact ⟨rfl, rfl, rfl⟩

theorem setWinExStyle_maps (os : OS) (h e : Nat) :
    (setWinExStyle os h e).hwndPid = os.hwndPid ∧
    (setWinExStyle os h e).pidName = os.pidName ∧
    (setWinExStyle os h e).livePids = os.livePids := by
  unfold setWinExStyle
  cases lookupA h os.windows <;> exact ⟨rfl, rfl, rfl⟩

theorem setWinRect_maps (os : OS) (h : Nat) (l t w ht : Int) :
    (setWinRect os h l t w ht).hwndPid = os.hwndPid ∧
    (setWinRect os h l t w ht).pidName = os.pidName ∧
    (setWinRect os h l t w ht).livePids = os.livePids := by
  unfold setWinRect
  cases lookupA h os.windows <;> exact ⟨rfl, rfl, rfl⟩

/-- On the no-fault path with a live target window, `xformStrip`
succeeds and the net OS effect is a single rewrite of the target
window's state to the chrome-stripped styles and target rectangle. -/
theorem xformStrip_ok {os : OS} {h : Nat} {ws : WinState} (p q : Int) (sh : Shared)
    (mr : Option Rect) (hw : lookupA h os.windows = some ws) :
    xformStrip p q noFaults os sh h mr =
      ⟨{ os with windows := insertA h (strippedState p q mr ws) os.windows },
        sh, none⟩ := by
  cases mr <;>
    simp [xformStrip, noFaults, hw, setWinStyle, setWinExStyle, setWinRect,
      lookupA_insertA_self, insertA_insertA, targetRect, strippedState]

/-- Successful fresh transform: with no faults, a live window and no
existing cache entry, the call succeeds, caches the original state,
strips the chrome, repositions the window, records the pid preference,
and leaves the membership set untouched. -/
theorem xform_ok {os : OS} {sh : Shared} {h : Nat} {ws : WinState} (p q : Int)
    (mr : Option Rect)
    (hc : lookupA h sh.window_style_cache = none)
    (hw : lookupA h os.windows = some ws) :
    set_borderless_fullscreen p q noFaults os sh h mr =
      ⟨{ os with windows := insertA h (strippedState p q mr ws) os.windows },
        xformPidStep os
          { sh with window_style_cache := insertA h ws sh.window_style_cache } h mr,
        none⟩ := by
  unfold set_borderless_fullscreen
  rw [hc]
  simp only [noFaults, Bool.false_eq_true, if_false, hw]
  exact xformStrip_ok p q _ mr hw

/-- Any transform call leaves the membership set untouched (callers add
membership on success themselves). -/
theorem xform_mem_eq (p q : Int) (f : Faults) (os : OS) (sh : Shared)
    (h : Nat) (mr : Option Rect) :
    (set_borderless_fullscreen p q f os sh h mr).sh.fullscreen_hwnds =
      sh.fullscreen_hwnds := by
  unfold set_borderless_fullscreen
  cases hc : lookupA h sh.window_style_cache with
  | some v => rw [xformStrip_sh]; exact xformPidStep_mem os sh h mr
  | none =>
      cases hf : f.snapReadFail
      · simp only [Bool.false_eq_true, if_false]
        cases hw : lookupA h os.windows with
        | none => rfl
        | some ws => rw [xformStrip_sh]; exact xformPidStep_mem _ _ h mr
      · rfl

/-- Any transform call leaves the cache bindings of other handles
alone. -/
theorem xform_cache_lookup_ne {k : Nat} (p q : Int) (f : Faults) (os : OS)
    (sh : Shared) {h : Nat} (mr : Option Rect) (hk : k ≠ h) :
    lookupA k (set_borderless_fullscreen p q f os sh h mr).sh.window_style_cache =
      lookupA k sh.window_style_cache := by
  unfold set_borderless_fullscreen
  cases hc : lookupA h sh.window_style_cache with
  | some v => rw [xformStrip_sh, xformPidStep_cache]
  | none =>
      cases hf : f.snapReadFail
      · simp only [Bool.false_eq_true, if_false]
        cases hw : lookupA h os.windows with
        | none => rfl
        | some ws =>
            rw [xformStrip_sh, xformPidStep_cache]
            exact lookupA_insertA_ne hk ws sh.window_style_cache
      · rfl

/-- A cache binding present before a transform is present, unchanged,
afterwards (the snapshot is written only for an uncached handle). -/
theorem xform_cache_lookup_some {k : Nat} {v : WinState} (p q : Int) (f : Faults)
    (os : OS) (sh : Shared) {h : Nat} (mr : Option Rect)
    (hv : lookupA k sh.window_style_cache = some v) :
    lookupA k (set_borderless_fullscreen p q f os sh h mr).sh.window_style_cache =
      some v := by
  by_cases hk : k = h
  · subst hk
    unfold set_borderless_fullscreen
    rw [hv, xformStrip_sh, xformPidStep_cache]
    exact hv
  · rw [xform_cache_lookup_ne p q f os sh mr hk]
    exact hv

/-- After a transform call that did not raise, the target handle is
cache-keyed. -/
theorem xform_cache_isSome_of_ok {p q : Int} {f : Faults} {os : OS} {sh : Shared}
    {h : Nat} {mr : Option Rect}
    (hok : (set_borderless_fullscreen p q f os sh h mr).err = none) :
    (lookupA h (set_borderless_fullscreen p q f os sh h mr).sh.window_style_cache).isSome := by
  unfold set_borderless_fullscreen at hok ⊢
  cases hc : lookupA h sh.window_style_cache with
  | some v => rw [xformStrip_sh, xformPidStep_cache, hc]; rfl
  | none =>
      rw [hc] at hok
      cases hf : f.snapReadFail
      · rw [hf] at hok
        simp only [Bool.false_eq_true, if_false] at hok ⊢
        cases hw : lookupA h os.windows with
        | none => rw [hw] at hok; simp at hok
        | some ws =>
            rw [hw] at hok
            rw [xformStrip_sh, xformPidStep_cache]
            simp [lookupA_insertA_self]
      · rw [hf] at hok; simp at hok

theorem xformStrip_os_lookup_ne {k h : Nat} (hk : k ≠ h) (p q : Int) (f : Faults)
    (os : OS) (sh : Shared) (mr : Option Rect) :
    lookupA k (xformStrip p q f os sh h mr).os.windows = lookupA k os.windows := by
  obtain ⟨f1, f2, f3, f4, f5⟩ := f
  cases f2 <;> cases f3 <;> cases f4 <;> cases f5 <;>
    cases hw : lookupA h os.windows <;>
      simp [xformStrip, hw, setWinStyle, setWinExStyle, setWinRect,
        lookupA_insertA_self, lookupA_insertA_ne hk]

theorem xformStrip_os_isSome {k h : Nat} (p q : Int) (f : Faults)
    (os : OS) (sh : Shared) (mr : Option Rect)
    (hs : (lookupA k os.windows).isSome) :
    (lookupA k (xformStrip p q f os sh h mr).os.windows).isSome := by
  by_cases hk : k = h
  · subst hk
    obtain ⟨f1, f2, f3, f4, f5⟩ := f
    cases f2 <;> cases f3 <;> cases f4 <;> cases f5 <;>
      cases hw : lookupA k os.windows <;>
        simp_all [xformStrip, hw, setWinStyle, setWinExStyle, setWinRect,
          lookupA_insertA_self]
  · rw [xformStrip_os_lookup_ne hk]
    exact hs

theorem xformStrip_os_maps (p q : Int) (f : Faults) (os : OS) (sh : Shared)
    (h : Nat) (mr : Option Rect) :
    (xformStrip p q f os sh h mr).os.hwndPid = os.hwndPid ∧
    (xformStrip p q f os sh h mr).os.pidName = os.pidName ∧
    (xformStrip p q f os sh h mr).os.livePids = os.livePids := by
  obtain ⟨f1, f2, f3, f4, f5⟩ := f
  cases f2 <;> cases f3 <;> cases f4 <;> cases f5 <;>
    cases hw : lookupA h os.windows <;>
      simp [xformStrip, hw, setWinStyle, setWinExStyle, setWinRect,
        lookupA_insertA_self]

/-- Any transform call leaves the windows of other handles unchanged. -/
theorem xform_os_lookup_ne {k : Nat} (p q : Int) (f : Faults) (os : OS)
    (sh : Shared) {h : Nat} (mr : Option Rect) (hk : k ≠ h) :
    lookupA k (set_borderless_fullscreen p q f os sh h mr).os.windows =
      lookupA k os.windows := by
  unfold set_borderless_fullscreen
  cases hc : lookupA h sh.window_style_cache with
  | some v => exact xformStrip_os_lookup_ne hk p q f os _ mr
  | none =>
      cases hf : f.snapReadFail
      · simp only [Bool.false_eq_true, if_false]
        cases hw : lookupA h os.windows with
        | none => rfl
        | some ws => exact xformStrip_os_lookup_ne hk p q f os _ mr
      · rfl

/-- Any transform call keeps every live window live (it only overwrites
window states, never removes them). -/
theorem xform_os_isSome {k : Nat} (p q : Int) (f : Faults) (os : OS)
    (sh : Shared) {h : Nat} (mr : Option Rect)
    (hs : (lookupA k os.windows).isSome) :
    (lookupA k (set_borderless_fullscreen p q f os sh h mr).os.windows).isSome := by
  unfold set_borderless_fullscreen
  cases hc : lookupA h sh.window_style_cache with
  | some v => exact xformStrip_os_isSome p q f os _ mr hs
  | none =>
      cases hf : f.snapReadFail
      · simp only [Bool.false_eq_true, if_false]
        cases hw : lookupA h os.windows with
        | none => exact hs
        | some ws => exact xformStrip_os_isSome p q f os _ mr hs
      · exact hs

/-- Any transform call leaves the hwnd-to-pid and pid-to-name views of
the OS unchanged (it never touches processes). -/
theorem xform_os_maps (p q : Int) (f : Faults) (os : OS) (sh : Shared)
    (h : Nat) (mr : Option Rect) :
    (set_borderless_fullscreen p q f os sh h mr).os.hwndPid = os.hwndPid ∧
    (set_borderless_fullscreen p q f os sh h mr).os.pidName = os.pidName ∧
    (set_borderless_fullscreen p q f os sh h mr).os.livePids = os.livePids := by
  unfold set_borderless_fullscreen
  cases hc : lookupA h sh.window_style_cache with
  | some v => exact xformStrip_os_maps p q f os _ h mr
  | none =>
      cases hf : f.snapReadFail
      · simp only [Bool.false_eq_true, if_false]
        cases hw : lookupA h os.windows with
        | none => exact ⟨rfl, rfl, rfl⟩
        | some ws => exact xformStrip_os_maps p q f os _ h mr
      · exact ⟨rfl, rfl, rfl⟩

/-- The preference table after a transform call: either untouched, or
upserted at the handle's resolved, truthy pid with the freshly resolved
process name and the monitor rect passed to the call. -/
theorem xform_last_cases (p q : Int) (f : Faults) (os : OS) (sh : Shared)
    (h : Nat) (mr : Option Rect) :
    (set_borderless_fullscreen p q f os sh h mr).sh.last_fullscreen_by_pid =
      sh.last_fullscreen_by_pid ∨
    ∃ pid, lookupA h os.hwndPid = some pid ∧ pid ≠ 0 ∧
      (set_borderless_fullscreen p q f os sh h mr).sh.last_fullscreen_by_pid =
        insertA pid (resolveName os pid, mr) sh.last_fullscreen_by_pid := by
  unfold set_borderless_fullscreen
  cases hc : lookupA h sh.window_style_cache with
  | some v =>
      rw [xformStrip_sh]
      exact xformPidStep_last_cases os sh h mr
  | none =>
      cases hf : f.snapReadFail
      · simp only [Bool.false_eq_true, if_false]
        cases hw : lookupA h os.windows with
        | none => exact Or.inl rfl
        | some ws =>
            rw [xformStrip_sh]
            exact xformPidStep_last_cases os _ h mr
      · exact Or.inl rfl

/-- A transform that cannot take its initial snapshot (the read raises
or the window is gone) aborts with nothing mutated at all. -/
theorem xform_snapfail {os : OS} {sh : Shared} {h : Nat} (p q : Int) (f : Faults)
    (mr : Option Rect)
    (hc : lookupA h sh.window_style_cache = none)
    (hfail : f.snapReadFail = true ∨ lookupA h os.windows = none) :
    set_borderless_fullscreen p q f os sh h mr = ⟨os, sh, some .snapReadFailed⟩ := by
  unfold set_borderless_fullscreen
  rw [hc]
  cases hfail with
  | inl hf => rw [hf]; rfl
  | inr hw =>
      cases hf : f.snapReadFail
      · simp only [Bool.false_eq_true, if_false]
        rw [hw]
      · rfl

/-- A transform on an already-cached handle whose strip-phase re-read
raises still performs the preference upsert before aborting. -/
theorem xform_stripfail_cached {os : OS} {sh : Shared} {h : Nat} {v : WinState}
    (p q : Int) (f : Faults) (mr : Option Rect)
    (hc : lookupA h sh.window_style_cache = some v)
    (hf : f.stripReadFail = true) :
    set_borderless_fullscreen p q f os sh h mr =
      ⟨os, xformPidStep os sh h mr, some .stripReadFailed⟩ := by
  unfold set_borderless_fullscreen
  rw [hc]
  unfold xformStrip
  rw [hf]
  rfl

/-- A transform whose style write raises after the snapshot was taken
leaves the snapshot in the cache and the preference upserted, but never
touches the membership set or the OS window. -/
theorem xform_writefail_fresh {os : OS} {sh : Shared} {h : Nat} {ws : WinState}
    (p q : Int) (f : Faults) (mr : Option Rect)
    (hc : lookupA h sh.window_style_cache = none)
    (hw : lookupA h os.windows = some ws)
    (h1 : f.snapReadFail = false) (h2 : f.stripReadFail = false)
    (h3 : f.styleWriteFail = true) :
    set_borderless_fullscreen p q f os sh h mr =
      ⟨os,
        xformPidStep os
          { sh with window_style_cache := insertA h ws sh.window_style_cache } h mr,
        some .styleWriteFailed⟩ := by
  unfold set_borderless_fullscreen xformStrip
  rw [hc, h1, h2, h3, hw]
  rfl

/-- A transform whose extended-style write raises after the plain style
write succeeded leaves the snapshot cached and the preference upserted
and never touches the membership set, but the OS window already has its
plain style word rewritten. -/
theorem xform_exwritefail_fresh {os : OS} {sh : Shared} {h : Nat} {ws : WinState}
    (p q : Int) (f : Faults) (mr : Option Rect)
    (hc : lookupA h sh.window_style_cache = none)
    (hw : lookupA h os.windows = some ws)
    (h1 : f.snapReadFail = false) (h2 : f.stripReadFail = false)
    (h3 : f.styleWriteFail = false) (h4 : f.exstyleWriteFail = true) :
    set_borderless_fullscreen p q f os sh h mr =
      ⟨setWinStyle os h (stripStyle ws.style),
        xformPidStep os
          { sh with window_style_cache := insertA h ws sh.window_style_cache } h mr,
        some .exstyleWriteFailed⟩ := by
  unfold set_borderless_fullscreen xformStrip
  rw [hc, h1, h2, h3, h4, hw]
  rfl

/-! ### Structural lemmas: revert -/

theorem revert_noop {os : OS} {sh : Shared} {h : Nat} (f : RFaults)
    (hc : lookupA h sh.window_style_cache = none) :
    revert_to_windowed f os sh h = (os, sh) := by
  unfold revert_to_windowed
  rw [hc]

theorem revertPidStep_cache (os : OS) (sh : Shared) (h : Nat) :
    (revertPidStep os sh h).window_style_cache = sh.window_style_cache := by
  unfold revertPidStep
  cases lookupA h os.hwndPid with
  | none => rfl
  | some pid => by_cases h0 : pid = 0 <;> simp [h0]

theorem revertPidStep_mem (os : OS) (sh : Shared) (h : Nat) :
    (revertPidStep os sh h).fullscreen_hwnds = sh.fullscreen_hwnds := by
  unfold revertPidStep
  cases lookupA h os.hwndPid with
  | none => rfl
  | some pid => by_cases h0 : pid = 0 <;> simp [h0]

theorem revertWrites_hwndPid (f : RFaults) (os : OS) (h : Nat) (ws : WinState) :
    (revertWrites f os h ws).hwndPid = os.hwndPid := by
  obtain ⟨f1, f2, f3⟩ := f
  cases f1 <;> cases f2 <;> cases f3 <;>
    simp [revertWrites, (setWinRect_maps _ _ _ _ _ _).1, (setWinStyle_maps _ _ _).1,
      (setWinExStyle_maps _ _ _).1]

theorem revert_mem_eq (f : RFaults) (os : OS) (sh : Shared) (h : Nat) :
    (revert_to_windowed f os sh h).2.fullscreen_hwnds = sh.fullscreen_hwnds := by
  unfold revert_to_windowed
  cases hc : lookupA h sh.window_style_cache with
  | none => rfl
  | some ws => exact revertPidStep_mem _ _ h

theorem revert_cache_erased (f : RFaults) (os : OS) (sh : Shared) (h : Nat)
    {ws : WinState} (hc : lookupA h sh.window_style_cache = some ws) :
    (revert_to_windowed f os sh h).2.window_style_cache =
      eraseA h sh.window_style_cache := by
  unfold revert_to_windowed
  rw [hc]
  exact revertPidStep_cache _ _ h

/-- Revert deletes the preference entry of the resolved, truthy owning
pid. -/
theorem revert_last_of_pid {os : OS} {sh : Shared} {h pid : Nat} {ws : WinState}
    (f : RFaults) (hc : lookupA h sh.window_style_cache = some ws)
    (hp : lookupA h os.hwndPid = some pid) (h0 : pid ≠ 0) :
    (revert_to_windowed f os sh h).2.last_fullscreen_by_pid =
      eraseA pid sh.last_fullscreen_by_pid := by
  unfold revert_to_windowed
  rw [hc]
  dsimp only
  unfold revertPidStep
  rw [revertWrites_hwndPid, hp]
  simp [h0]

/-- With no write faults and a live window, the best-effort restore
phase of revert puts the snapshot's style words and rectangle back
bit-for-bit. -/
theorem revertWrites_restores {os : OS} {h : Nat} {cur : WinState} (ws : WinState)
    (hw : lookupA h os.windows = some cur) :
    lookupA h (revertWrites noRFaults os h ws).windows = some ws := by
  obtain ⟨s, e, ⟨a, b, c, d⟩⟩ := ws
  simp only [revertWrites, noRFaults, Bool.false_eq_true, if_false,
    setWinStyle, setWinExStyle, setWinRect, hw, lookupA_insertA_self,
    insertA_insertA, Option.some.injEq, WinState.mk.injEq, Rect.mk.injEq,
    true_and, and_true]
  omega

/-! ### Claim theorems -/

/-- C7: for every input style value and extended-style value the
transform's strip step (`stripStyle`/`stripExStyle`, lines 163-164)
clears exactly the chrome bits — `WS_CAPTION`, `WS_THICKFRAME`,
`WS_MINIMIZEBOX`, `WS_MAXIMIZEBOX`, `WS_SYSMENU` from the style and
`WS_EX_DLGMODALFRAME`, `WS_EX_CLIENTEDGE`, `WS_EX_STATICEDGE` from the
extended style — and every bit outside these masks is unchanged. -/
theorem c7_chrome_mask_exact (s e i : Nat) :
    (stripStyle s).testBit i =
      (if styleChromeMask.testBit i then false else s.testBit i) ∧
    (stripExStyle e).testBit i =
      (if exstyleChromeMask.testBit i then false else e.testBit i) := by
  constructor
  · simp only [stripStyle, Nat.testBit_xor, Nat.testBit_land]
    cases hm : styleChromeMask.testBit i <;> cases hs : s.testBit i <;> simp
  · simp only [stripExStyle, Nat.testBit_xor, Nat.testBit_land]
    cases hm : exstyleChromeMask.testBit i <;> cases he : e.testBit i <;> simp

/-- C8 counterexample: on a timer tick taken while the UI is minimized,
no refresh is performed at all (the tick's refresh flag is `false`, and
the status line in the source even reads "Minimized - paused updates"),
contradicting the claim that refreshes still occur while minimized,
only less frequently. -/
theorem c8_counterexample : (update_windows_periodically true).1 = false := rfl

/-- C8 (amended): a tick while the UI is visible refreshes and
reschedules with period 3000 ms (3 time-units); a tick while minimized
performs no refresh and reschedules with period 10000 ms (10
time-units) — the wider period exists, but refreshing is paused rather
than merely slowed while minimized. -/
theorem c8_timer_behaviour :
    update_windows_periodically false = (true, 3000) ∧
    update_windows_periodically true = (false, 10000) :=
  ⟨rfl, rfl⟩

/-- C1 (amended): for a handle with no existing cache entry and a live
window, a no-fault transform succeeds and a following revert restores
the window's style bits, extended-style bits and bounding rectangle
bit-for-bit. -/
theorem c1_roundtrip_fresh (p q : Int) (os : OS) (sh : Shared) (h : Nat)
    (mr : Option Rect) (ws : WinState)
    (hc : lookupA h sh.window_style_cache = none)
    (hw : lookupA h os.windows = some ws) :
    (set_borderless_fullscreen p q noFaults os sh h mr).err = none ∧
    lookupA h
      (revert_to_windowed noRFaults
        (set_borderless_fullscreen p q noFaults os sh h mr).os
        (set_borderless_fullscreen p q noFaults os sh h mr).sh h).1.windows =
      some ws := by
  rw [xform_ok p q mr hc hw]
  refine ⟨rfl, ?_⟩
  unfold revert_to_windowed
  rw [xformPidStep_cache]
  dsimp only
  rw [lookupA_insertA_self]
  exact revertWrites_restores ws (lookupA_insertA_self h _ _)

/-- C1 witness: the round trip at a concrete window. -/
theorem c1_roundtrip_fresh_witness :
    let os : OS := ⟨[(1, ⟨0x00CF0001, 0x00020201, ⟨10, 20, 300, 400⟩⟩)], [(1, 42)],
      [(42, "app.exe")], [42]⟩
    (set_borderless_fullscreen 1920 1080 noFaults os ⟨[], [], []⟩ 1
      (some ⟨0, 0, 800, 600⟩)).err = none ∧
    lookupA 1
      (revert_to_windowed noRFaults
        (set_borderless_fullscreen 1920 1080 noFaults os ⟨[], [], []⟩ 1
          (some ⟨0, 0, 800, 600⟩)).os
        (set_borderless_fullscreen 1920 1080 noFaults os ⟨[], [], []⟩ 1
          (some ⟨0, 0, 800, 600⟩)).sh 1).1.windows =
      some ⟨0x00CF0001, 0x00020201, ⟨10, 20, 300, 400⟩⟩ :=
  c1_roundtrip_fresh 1920 1080 _ _ 1 _ _ rfl rfl

/-- C1 counterexample: on a handle that already has a cache entry (here
from an earlier transform), a second transform succeeds but the
following revert restores the originally snapshotted state, not the
window state immediately before that second transform, so the
round-trip claim fails for such a handle. -/
theorem c1_counterexample :
    let os0 : OS := ⟨[(1, ⟨0x00CF0001, 0x00020201, ⟨10, 20, 300, 400⟩⟩)], [(1, 42)],
      [(42, "app.exe")], [42]⟩
    let t1 := set_borderless_fullscreen 1920 1080 noFaults os0 ⟨[], [], []⟩ 1
      (some ⟨0, 0, 800, 600⟩)
    let t2 := set_borderless_fullscreen 1920 1080 noFaults t1.os t1.sh 1
      (some ⟨0, 0, 1024, 768⟩)
    let rv := revert_to_windowed noRFaults t2.os t2.sh 1
    t2.err = none ∧
    lookupA 1 rv.1.windows ≠ lookupA 1 t1.os.windows :=
  ⟨rfl, by decide⟩

/-- C3 counterexample: a transform on an already-cached handle whose
style re-read raises (the failure mode the spec calls
`StyleReadFailed`) has already upserted the preference table before
aborting, so shared state IS mutated by that failing call. -/
theorem c3_counterexample :
    let os : OS := ⟨[(1, ⟨3, 4, ⟨0, 0, 2, 2⟩⟩)], [(1, 42)], [], [42]⟩
    let sh : Shared := ⟨[(1, ⟨5, 6, ⟨0, 0, 1, 1⟩⟩)], [], [1]⟩
    let r := set_borderless_fullscreen 1920 1080 ⟨false, true, false, false, false⟩ os sh 1
      (some ⟨0, 0, 8, 8⟩)
    r.err = some TErr.stripReadFailed ∧
    r.sh.last_fullscreen_by_pid ≠ sh.last_fullscreen_by_pid :=
  ⟨rfl, by decide⟩

/-- C3 (amended): a style-read failure at the initial snapshot (handle
not yet cached) aborts with no state mutated at all; a style-read
failure at the strip-phase re-read (handle already cached) leaves the
cache, the membership set and the OS unchanged, but the preference
upsert for the handle's resolved pid has already happened. -/
theorem c3_mutation_scope (p q : Int) (f : Faults) (os : OS) (sh : Shared)
    (h : Nat) (mr : Option Rect) :
    (lookupA h sh.window_style_cache = none →
      f.snapReadFail = true ∨ lookupA h os.windows = none →
      set_borderless_fullscreen p q f os sh h mr = ⟨os, sh, some TErr.snapReadFailed⟩) ∧
    (∀ v, lookupA h sh.window_style_cache = some v → f.stripReadFail = true →
      set_borderless_fullscreen p q f os sh h mr =
        ⟨os, xformPidStep os sh h mr, some TErr.stripReadFailed⟩) :=
  ⟨fun hc hfail => xform_snapfail p q f mr hc hfail,
    fun _ hc hf => xform_stripfail_cached p q f mr hc hf⟩

/-- C3 witness: the no-mutation half at a concrete failing snapshot
read. -/
theorem c3_mutation_scope_witness :
    set_borderless_fullscreen 1920 1080 ⟨true, false, false, false, false⟩
        ⟨[], [], [], []⟩ ⟨[], [], []⟩ 1 none =
      ⟨⟨[], [], [], []⟩, ⟨[], [], []⟩, some TErr.snapReadFailed⟩ :=
  (c3_mutation_scope 1920 1080 ⟨true, false, false, false, false⟩
    ⟨[], [], [], []⟩ ⟨[], [], []⟩ 1 none).1 rfl (Or.inl rfl)

/-- C4 counterexample: after a style-write failure following the
snapshot, the handle is indeed not in the membership set, but the cache
RETAINS the snapshot entry for it, contrary to the claim that the cache
retains no entry. -/
theorem c4_counterexample :
    let os : OS := ⟨[(1, ⟨0x00CF0001, 0x00020201, ⟨10, 20, 300, 400⟩⟩)], [(1, 42)],
      [(42, "app.exe")], [42]⟩
    let r := set_borderless_fullscreen 1920 1080 ⟨false, false, true, false, false⟩ os
      ⟨[], [], []⟩ 1 (some ⟨0, 0, 800, 600⟩)
    r.err = some TErr.styleWriteFailed ∧
    lookupA 1 r.sh.window_style_cache =
      some ⟨0x00CF0001, 0x00020201, ⟨10, 20, 300, 400⟩⟩ ∧
    r.sh.fullscreen_hwnds = [] :=
  ⟨rfl, rfl, rfl⟩

/-- C4 (amended): if either `SetWindowLong` write (line 166 or 167)
fails after the snapshot was taken, the membership set is untouched and
the cache retains the snapshot entry for the handle. When the plain
style write (line 166) fails nothing has been written to the window;
when the extended-style write (line 167) fails after it, the plain
style word has already been rewritten on the window. -/
theorem c4_write_failure_state (p q : Int) (f : Faults) (os : OS) (sh : Shared)
    (h : Nat) (mr : Option Rect) (ws : WinState)
    (hc : lookupA h sh.window_style_cache = none)
    (hw : lookupA h os.windows = some ws)
    (h1 : f.snapReadFail = false) (h2 : f.stripReadFail = false)
    (h3 : f.styleWriteFail = true ∨ f.exstyleWriteFail = true) :
    (set_borderless_fullscreen p q f os sh h mr).sh.fullscreen_hwnds =
      sh.fullscreen_hwnds ∧
    lookupA h (set_borderless_fullscreen p q f os sh h mr).sh.window_style_cache =
      some ws ∧
    (((set_borderless_fullscreen p q f os sh h mr).err = some TErr.styleWriteFailed ∧
      (set_borderless_fullscreen p q f os sh h mr).os = os) ∨
     ((set_borderless_fullscreen p q f os sh h mr).err = some TErr.exstyleWriteFailed ∧
      (set_borderless_fullscreen p q f os sh h mr).os =
        setWinStyle os h (stripStyle ws.style))) := by
  by_cases hsw : f.styleWriteFail = true
  · rw [xform_writefail_fresh p q f mr hc hw h1 h2 hsw]
    refine ⟨xformPidStep_mem _ _ _ _, ?_, Or.inl ⟨rfl, rfl⟩⟩
    rw [xformPidStep_cache]
    exact lookupA_insertA_self h ws sh.window_style_cache
  · have hsf : f.styleWriteFail = false := by
      cases hb : f.styleWriteFail
      · rfl
      · exact absurd hb hsw
    have hef : f.exstyleWriteFail = true := by
      cases h3 with
      | inl hx => exact absurd hx hsw
      | inr hx => exact hx
    rw [xform_exwritefail_fresh p q f mr hc hw h1 h2 hsf hef]
    refine ⟨xformPidStep_mem _ _ _ _, ?_, Or.inr ⟨rfl, rfl⟩⟩
    rw [xformPidStep_cache]
    exact lookupA_insertA_self h ws sh.window_style_cache

/-- C4 witness at a concrete window, with the extended-style write
failing after the plain style write succeeded. -/
theorem c4_write_failure_state_witness :
    let os : OS := ⟨[(1, ⟨5, 6, ⟨0, 0, 4, 4⟩⟩)], [], [], []⟩
    let r := set_borderless_fullscreen 1920 1080 ⟨false, false, false, true, false⟩ os
      ⟨[], [], []⟩ 1 none
    r.sh.fullscreen_hwnds = [] ∧
    lookupA 1 r.sh.window_style_cache = some ⟨5, 6, ⟨0, 0, 4, 4⟩⟩ ∧
    ((r.err = some TErr.styleWriteFailed ∧ r.os = os) ∨
     (r.err = some TErr.exstyleWriteFailed ∧
      r.os = setWinStyle os 1 (stripStyle 5))) :=
  c4_write_failure_state 1920 1080 ⟨false, false, false, true, false⟩
    ⟨[(1, ⟨5, 6, ⟨0, 0, 4, 4⟩⟩)], [], [], []⟩ ⟨[], [], []⟩ 1 none
    ⟨5, 6, ⟨0, 0, 4, 4⟩⟩ rfl rfl rfl rfl (Or.inr rfl)

/-- C5 counterexample: revert on a cached, member handle pops the cache
entry but leaves the handle in the membership set, so revert neither
removes membership nor re-establishes I1 for the handle at return. -/
theorem c5_counterexample :
    let os : OS := ⟨[(1, ⟨3, 4, ⟨0, 0, 2, 2⟩⟩)], [(1, 42)], [(42, "app.exe")], [42]⟩
    let sh : Shared := ⟨[(1, ⟨5, 6, ⟨0, 0, 1, 1⟩⟩)], [(42, ("app.exe", none))], [1]⟩
    let r := revert_to_windowed noRFaults os sh 1
    lookupA 1 r.2.window_style_cache = none ∧ r.2.fullscreen_hwnds = [1] :=
  ⟨rfl, rfl⟩

/-- C5 (amended): for a cached handle, revert pops the snapshot and
removes the preference entry of the resolved truthy owning pid, under
any fault schedule; but it does not touch the membership set —
membership removal, and hence I1 for the handle, is left to the
caller's list move or to the next reconciliation pass. -/
theorem c5_revert_effects (f : RFaults) (os : OS) (sh : Shared) (h : Nat)
    (ws : WinState)
    (hc : lookupA h sh.window_style_cache = some ws)
    (hnd : (sh.window_style_cache.map Prod.fst).Nodup) :
    lookupA h (revert_to_windowed f os sh h).2.window_style_cache = none ∧
    (revert_to_windowed f os sh h).2.fullscreen_hwnds = sh.fullscreen_hwnds ∧
    ∀ pid, lookupA h os.hwndPid = some pid → pid ≠ 0 →
      (revert_to_windowed f os sh h).2.last_fullscreen_by_pid =
        eraseA pid sh.last_fullscreen_by_pid := by
  refine ⟨?_, revert_mem_eq f os sh h, fun pid hp h0 => revert_last_of_pid f hc hp h0⟩
  rw [revert_cache_erased f os sh h hc]
  exact lookupA_eraseA_self h _ hnd

/-- C5 witness at a concrete cached handle. -/
theorem c5_revert_effects_witness :
    let os : OS := ⟨[(1, ⟨3, 4, ⟨0, 0, 2, 2⟩⟩)], [(1, 42)], [(42, "app.exe")], [42]⟩
    let sh : Shared := ⟨[(1, ⟨5, 6, ⟨0, 0, 1, 1⟩⟩)], [(42, ("app.exe", none))], [1]⟩
    lookupA 1 (revert_to_windowed noRFaults os sh 1).2.window_style_cache = none ∧
    (revert_to_windowed noRFaults os sh 1).2.fullscreen_hwnds = [1] ∧
    (revert_to_windowed noRFaults os sh 1).2.last_fullscreen_by_pid = [] := by
  obtain ⟨e1, e2, e3⟩ := c5_revert_effects noRFaults
    ⟨[(1, ⟨3, 4, ⟨0, 0, 2, 2⟩⟩)], [(1, 42)], [(42, "app.exe")], [42]⟩
    ⟨[(1, ⟨5, 6, ⟨0, 0, 1, 1⟩⟩)], [(42, ("app.exe", none))], [1]⟩ 1
    ⟨5, 6, ⟨0, 0, 1, 1⟩⟩ rfl (by decide)
  exact ⟨e1, e2, e3 42 rfl (by decide)⟩

/-- C10 (amended): every record returned by `enum_windows` has a
resolved pid and a non-empty process name, and stems from a visible raw
window whose pid resolution succeeded and whose callback-checked title
(the first `GetWindowText` read, line 93) was not blank; a visible
titled window whose pid cannot be resolved produces no record at all
(it is not reported under a sentinel name). The record's own title,
however, comes from the second `GetWindowText` read inside
`WindowInfo.get_process_info` and can be blank when that read raises or
returns a changed value. -/
theorem c10_enum_records (raws : List RawWin) :
    ∀ rec ∈ enum_windows raws,
      rec.process_name ≠ "" ∧
      ∃ raw ∈ raws, raw.hwnd = rec.hwnd ∧ raw.visible = true ∧
        titleBlank raw.title = false ∧ raw.pidRes = some rec.pid ∧
        rec.title = (match raw.titleRes2 with | some t => t | none => "") := by
  induction raws with
  | nil => intro rec h; cases h
  | cons r rest ih =>
      intro rec hrec
      unfold enum_windows at hrec
      by_cases hv : r.visible = false
      · rw [if_pos hv] at hrec
        obtain ⟨h1, raw, hraw, hprops⟩ := ih rec hrec
        exact ⟨h1, raw, List.mem_cons_of_mem r hraw, hprops⟩
      · rw [if_neg hv] at hrec
        by_cases ht : titleBlank r.title = true
        · rw [if_pos ht] at hrec
          obtain ⟨h1, raw, hraw, hprops⟩ := ih rec hrec
          exact ⟨h1, raw, List.mem_cons_of_mem r hraw, hprops⟩
        · rw [if_neg ht] at hrec
          cases hp : r.pidRes with
          | none =>
              rw [hp] at hrec
              obtain ⟨h1, raw, hraw, hprops⟩ := ih rec hrec
              exact ⟨h1, raw, List.mem_cons_of_mem r hraw, hprops⟩
          | some pid =>
              rw [hp] at hrec
              cases hrec with
              | tail _ hmem =>
                  obtain ⟨h1, raw, hraw, hprops⟩ := ih rec hmem
                  exact ⟨h1, raw, List.mem_cons_of_mem r hraw, hprops⟩
              | head =>
                  refine ⟨?_, r, List.mem_cons_self r rest, rfl, ?_, ?_, ?_, rfl⟩
                  · unfold mkRecord
                    cases hn : r.nameRes with
                    | none => simp
                    | some n =>
                        by_cases hne : n = "" <;> simp [hne]
                  · rw [Bool.not_eq_false] at hv
                    exact hv
                  · show titleBlank r.title = false
                    rw [Bool.not_eq_true] at ht
                    exact ht
                  · exact hp

/-- C10 counterexample: the blank-title check at line 94 tests the
callback's own `GetWindowText` result ("hello"), but the appended
record's title is re-read inside `WindowInfo.get_process_info`; when
that second read raises (degraded to `""` by the except at lines 65-66)
while the pid still resolves, the enumeration returns a record with a
blank title — blank-titled records are not excluded from the output. -/
theorem c10_counterexample :
    let raws : List RawWin := [⟨1, true, "hello", none, some 42, some "app.exe"⟩]
    enum_windows raws = [⟨1, 42, "app.exe", ""⟩] ∧
    titleBlank (⟨1, 42, "app.exe", ""⟩ : WRecord).title = true :=
  ⟨rfl, rfl⟩

/-- C10 witness: a concrete enumeration containing one well-formed
visible window whose two title reads agree. -/
theorem c10_enum_records_witness :
    let raws : List RawWin := [⟨1, true, "hello", some "hello", some 42, some "app.exe"⟩]
    let rec0 : WRecord := ⟨1, 42, "app.exe", "hello"⟩
    rec0.process_name ≠ "" ∧
    ∃ raw ∈ raws, raw.hwnd = rec0.hwnd ∧ raw.visible = true ∧
      titleBlank raw.title = false ∧ raw.pidRes = some rec0.pid ∧
      rec0.title = (match raw.titleRes2 with | some t => t | none => "") :=
  c10_enum_records [⟨1, true, "hello", some "hello", some 42, some "app.exe"⟩]
    ⟨1, 42, "app.exe", "hello"⟩ (by decide)

/-! ### Structural lemmas: the reapply loop -/

/-- Case analysis for one reapply-loop body: either the candidate is
skipped and the state is unchanged, or the candidate passed all guards
(untracked, uncached, matching truthy stored name) and a transform was
attempted, with membership added exactly on success. -/
theorem reapplyStep_cases (p q : Int) (f : Faults) (pid : Nat) (w : WRecord)
    (st : OS × Shared) :
    reapplyStep p q f pid w st = st ∨
    (w.hwnd ∉ st.2.fullscreen_hwnds ∧
      lookupA w.hwnd st.2.window_style_cache = none ∧
      ∃ mr en, lookupA pid st.2.last_fullscreen_by_pid = some (en, mr) ∧
        en ≠ "" ∧ en = w.process_name ∧
        (((set_borderless_fullscreen p q f st.1 st.2 w.hwnd mr).err = none ∧
          reapplyStep p q f pid w st =
            ((set_borderless_fullscreen p q f st.1 st.2 w.hwnd mr).os,
              { (set_borderless_fullscreen p q f st.1 st.2 w.hwnd mr).sh with
                  fullscreen_hwnds :=
                    addSet w.hwnd
                      (set_borderless_fullscreen p q f st.1 st.2 w.hwnd
                        mr).sh.fullscreen_hwnds })) ∨
         ((set_borderless_fullscreen p q f st.1 st.2 w.hwnd mr).err ≠ none ∧
          reapplyStep p q f pid w st =
            ((set_borderless_fullscreen p q f st.1 st.2 w.hwnd mr).os,
              (set_borderless_fullscreen p q f st.1 st.2 w.hwnd mr).sh)))) := by
  obtain ⟨os, sh⟩ := st
  unfold reapplyStep
  dsimp only
  split
  · exact Or.inl rfl
  next en mr hL =>
    by_cases hg : en ≠ "" ∧ en = w.process_name
    · rw [if_pos hg]
      by_cases hin : w.hwnd ∉ sh.fullscreen_hwnds ∧
          lookupA w.hwnd sh.window_style_cache = none
      · rw [if_pos hin]
        cases herr : (set_borderless_fullscreen p q f os sh w.hwnd mr).err with
        | none =>
            exact Or.inr ⟨hin.1, hin.2, mr, en, hL, hg.1, hg.2,
              Or.inl ⟨herr, rfl⟩⟩
        | some e4 =>
            exact Or.inr ⟨hin.1, hin.2, mr, en, hL, hg.1, hg.2,
              Or.inr ⟨by simp [herr], rfl⟩⟩
      · rw [if_neg hin]; exact Or.inl rfl
    · rw [if_neg hg]; exact Or.inl rfl

/-- Membership only grows during the reapply loop. -/
theorem reapplyStep_mem_mono {x : Nat} (p q : Int) (f : Faults) (pid : Nat)
    (w : WRecord) (st : OS × Shared) (hm : x ∈ st.2.fullscreen_hwnds) :
    x ∈ (reapplyStep p q f pid w st).2.fullscreen_hwnds := by
  rcases reapplyStep_cases p q f pid w st with heq |
    ⟨hnm, hnc, mr, en, hL, h1, h2, hcase⟩
  · rw [heq]; exact hm
  · rcases hcase with ⟨herr, heq⟩ | ⟨herr, heq⟩ <;> rw [heq] <;> dsimp only
    · rw [xform_mem_eq]
      exact mem_addSet_of_mem hm
    · rw [xform_mem_eq]
      exact hm

/-- A cache binding of a non-member handle survives a reapply-loop body
unchanged, and the handle stays a non-member. -/
theorem reapplyStep_cached_nonmember {k : Nat} {v : WinState} (p q : Int)
    (f : Faults) (pid : Nat) (w : WRecord) (st : OS × Shared)
    (hv : lookupA k st.2.window_style_cache = some v)
    (hm : k ∉ st.2.fullscreen_hwnds) :
    lookupA k (reapplyStep p q f pid w st).2.window_style_cache = some v ∧
    k ∉ (reapplyStep p q f pid w st).2.fullscreen_hwnds := by
  rcases reapplyStep_cases p q f pid w st with heq |
    ⟨hnm, hnc, mr, en, hL, h1, h2, hcase⟩
  · rw [heq]; exact ⟨hv, hm⟩
  · have hkw : k ≠ w.hwnd := by
      intro e
      rw [e, hnc] at hv
      cases hv
    rcases hcase with ⟨herr, heq⟩ | ⟨herr, heq⟩ <;> rw [heq] <;> dsimp only
    · refine ⟨xform_cache_lookup_some p q f st.1 st.2 mr hv, ?_⟩
      rw [xform_mem_eq]
      intro hk
      rcases mem_addSet.mp hk with e | hk2
      · exact hkw e
      · exact hm hk2
    · refine ⟨xform_cache_lookup_some p q f st.1 st.2 mr hv, ?_⟩
      rw [xform_mem_eq]
      exact hm

/-- A member handle with no cache entry is never touched by a
reapply-loop body: it stays a member, stays uncached, and its OS window
state is untouched. -/
theorem reapplyStep_member_uncached {x : Nat} (p q : Int) (f : Faults)
    (pid : Nat) (w : WRecord) (st : OS × Shared)
    (hm : x ∈ st.2.fullscreen_hwnds)
    (hnc : lookupA x st.2.window_style_cache = none) :
    x ∈ (reapplyStep p q f pid w st).2.fullscreen_hwnds ∧
    lookupA x (reapplyStep p q f pid w st).2.window_style_cache = none ∧
    lookupA x (reapplyStep p q f pid w st).1.windows = lookupA x st.1.windows := by
  rcases reapplyStep_cases p q f pid w st with heq |
    ⟨hnm, hnc2, mr, en, hL, h1, h2, hcase⟩
  · rw [heq]; exact ⟨hm, hnc, rfl⟩
  · have hxw : x ≠ w.hwnd := by
      intro e
      exact hnm (e ▸ hm)
    rcases hcase with ⟨herr, heq⟩ | ⟨herr, heq⟩ <;> rw [heq] <;> dsimp only
    · refine ⟨?_, ?_, xform_os_lookup_ne p q f st.1 st.2 mr hxw⟩
      · rw [xform_mem_eq]
        exact mem_addSet_of_mem hm
      · rw [xform_cache_lookup_ne p q f st.1 st.2 mr hxw]
        exact hnc
    · refine ⟨?_, ?_, xform_os_lookup_ne p q f st.1 st.2 mr hxw⟩
      · rw [xform_mem_eq]
        exact hm
      · rw [xform_cache_lookup_ne p q f st.1 st.2 mr hxw]
        exact hnc

/-- A reapply-loop body never changes the OS process views. -/
theorem reapplyStep_os_maps (p q : Int) (f : Faults) (pid : Nat) (w : WRecord)
    (st : OS × Shared) :
    (reapplyStep p q f pid w st).1.hwndPid = st.1.hwndPid ∧
    (reapplyStep p q f pid w st).1.pidName = st.1.pidName := by
  rcases reapplyStep_cases p q f pid w st with heq |
    ⟨_, _, mr, en, _, _, _, hcase⟩
  · rw [heq]; exact ⟨rfl, rfl⟩
  · rcases hcase with ⟨_, heq⟩ | ⟨_, heq⟩ <;> rw [heq] <;> dsimp only <;>
      exact ⟨(xform_os_maps p q f st.1 st.2 w.hwnd mr).1,
        (xform_os_maps p q f st.1 st.2 w.hwnd mr).2.1⟩

theorem reapplyWins_mem_mono {x : Nat} (p q : Int) (faultOf : Nat → Faults)
    (pid : Nat) (ws : List WRecord) (st : OS × Shared)
    (hm : x ∈ st.2.fullscreen_hwnds) :
    x ∈ (reapplyWins p q faultOf pid ws st).2.fullscreen_hwnds := by
  induction ws generalizing st with
  | nil => exact hm
  | cons w rest ih =>
      exact ih _ (reapplyStep_mem_mono p q (faultOf w.hwnd) pid w st hm)

theorem reapplyPids_mem_mono {x : Nat} (p q : Int) (faultOf : Nat → Faults)
    (windows : List WRecord) (pids : List Nat) (st : OS × Shared)
    (hm : x ∈ st.2.fullscreen_hwnds) :
    x ∈ (reapplyPids p q faultOf windows pids st).2.fullscreen_hwnds := by
  induction pids generalizing st with
  | nil => exact hm
  | cons pid rest ih =>
      exact ih _ (reapplyWins_mem_mono p q faultOf pid _ st hm)

theorem reapplyWins_cached_nonmember {k : Nat} {v : WinState} (p q : Int)
    (faultOf : Nat → Faults) (pid : Nat) (ws : List WRecord) (st : OS × Shared)
    (hv : lookupA k st.2.window_style_cache = some v)
    (hm : k ∉ st.2.fullscreen_hwnds) :
    lookupA k (reapplyWins p q faultOf pid ws st).2.window_style_cache = some v ∧
    k ∉ (reapplyWins p q faultOf pid ws st).2.fullscreen_hwnds := by
  induction ws generalizing st with
  | nil => exact ⟨hv, hm⟩
  | cons w rest ih =>
      obtain ⟨hv2, hm2⟩ :=
        reapplyStep_cached_nonmember p q (faultOf w.hwnd) pid w st hv hm
      exact ih _ hv2 hm2

theorem reapplyPids_cached_nonmember {k : Nat} {v : WinState} (p q : Int)
    (faultOf : Nat → Faults) (windows : List WRecord) (pids : List Nat)
    (st : OS × Shared)
    (hv : lookupA k st.2.window_style_cache = some v)
    (hm : k ∉ st.2.fullscreen_hwnds) :
    lookupA k (reapplyPids p q faultOf windows pids st).2.window_style_cache = some v ∧
    k ∉ (reapplyPids p q faultOf windows pids st).2.fullscreen_hwnds := by
  induction pids generalizing st with
  | nil => exact ⟨hv, hm⟩
  | cons pid rest ih =>
      obtain ⟨hv2, hm2⟩ := reapplyWins_cached_nonmember p q faultOf pid _ st hv hm
      exact ih _ hv2 hm2

theorem reapplyWins_member_uncached {x : Nat} (p q : Int)
    (faultOf : Nat → Faults) (pid : Nat) (ws : List WRecord) (st : OS × Shared)
    (hm : x ∈ st.2.fullscreen_hwnds)
    (hnc : lookupA x st.2.window_style_cache = none) :
    x ∈ (reapplyWins p q faultOf pid ws st).2.fullscreen_hwnds ∧
    lookupA x (reapplyWins p q faultOf pid ws st).2.window_style_cache = none ∧
    lookupA x (reapplyWins p q faultOf pid ws st).1.windows =
      lookupA x st.1.windows := by
  induction ws generalizing st with
  | nil => exact ⟨hm, hnc, rfl⟩
  | cons w rest ih =>
      obtain ⟨h1, h2, h3⟩ :=
        reapplyStep_member_uncached p q (faultOf w.hwnd) pid w st hm hnc
      obtain ⟨g1, g2, g3⟩ := ih _ h1 h2
      exact ⟨g1, g2, g3.trans h3⟩

theorem reapplyPids_member_uncached {x : Nat} (p q : Int)
    (faultOf : Nat → Faults) (windows : List WRecord) (pids : List Nat)
    (st : OS × Shared)
    (hm : x ∈ st.2.fullscreen_hwnds)
    (hnc : lookupA x st.2.window_style_cache = none) :
    x ∈ (reapplyPids p q faultOf windows pids st).2.fullscreen_hwnds ∧
    lookupA x (reapplyPids p q faultOf windows pids st).2.window_style_cache = none ∧
    lookupA x (reapplyPids p q faultOf windows pids st).1.windows =
      lookupA x st.1.windows := by
  induction pids generalizing st with
  | nil => exact ⟨hm, hnc, rfl⟩
  | cons pid rest ih =>
      obtain ⟨h1, h2, h3⟩ := reapplyWins_member_uncached p q faultOf pid _ st hm hnc
      obtain ⟨g1, g2, g3⟩ := ih _ h1 h2
      exact ⟨g1, g2, g3.trans h3⟩

theorem gcPass_mem {os : OS} {sh : Shared} {new_hwnds : List Nat} {h : Nat} :
    h ∈ (gcPass os sh new_hwnds).fullscreen_hwnds ↔
      h ∈ sh.fullscreen_hwnds ∧ h ∈ new_hwnds := by
  unfold gcPass
  dsimp only
  rw [List.mem_filter]
  simp

theorem gcPass_cache_lookup_of_new {os : OS} {sh : Shared} {new_hwnds : List Nat}
    {h : Nat} (hnew : h ∈ new_hwnds) :
    lookupA h (gcPass os sh new_hwnds).window_style_cache =
      lookupA h sh.window_style_cache := by
  unfold gcPass
  dsimp only
  rw [lookupA_filter_key
    (fun k => decide (k ∉ List.filter (fun x => decide (x ∉ new_hwnds)) sh.fullscreen_hwnds))
    h sh.window_style_cache]
  have hcl : h ∉ List.filter (fun x => decide (x ∉ new_hwnds)) sh.fullscreen_hwnds := by
    intro hc
    obtain ⟨-, hd⟩ := List.mem_filter.mp hc
    exact (of_decide_eq_true hd) hnew
  rw [if_pos (decide_eq_true hcl)]

theorem gcPass_cache_lookup_of_nonmember {os : OS} {sh : Shared}
    {new_hwnds : List Nat} {h : Nat} (hm : h ∉ sh.fullscreen_hwnds) :
    lookupA h (gcPass os sh new_hwnds).window_style_cache =
      lookupA h sh.window_style_cache := by
  unfold gcPass
  dsimp only
  rw [lookupA_filter_key
    (fun k => decide (k ∉ List.filter (fun x => decide (x ∉ new_hwnds)) sh.fullscreen_hwnds))
    h sh.window_style_cache]
  have hcl : h ∉ List.filter (fun x => decide (x ∉ new_hwnds)) sh.fullscreen_hwnds := by
    intro hc
    exact hm (List.mem_filter.mp hc).1
  rw [if_pos (decide_eq_true hcl)]

/-- C2 (amended): after every reconciliation pass, every handle in the
Fullscreen Membership Set is a key of the Style/Geometry Cache (the
membership-to-cache direction of I1 holds), for any enumeration, any
starting state and any fault schedule of the pass's transforms. The
converse direction fails: a cache-keyed non-member can survive the
pass. -/
theorem c2_membership_implies_cached (p q : Int) (faultOf : Nat → Faults)
    (windows : List WRecord) (os : OS) (sh : Shared) :
    ∀ h ∈ (update_windows_lists p q faultOf windows os sh).sh.fullscreen_hwnds,
      (lookupA h
        (update_windows_lists p q faultOf windows os sh).sh.window_style_cache).isSome := by
  intro h hmem
  unfold update_windows_lists at hmem ⊢
  dsimp only at hmem ⊢
  obtain ⟨hm1, hnew⟩ := gcPass_mem.mp hmem
  rw [gcPass_cache_lookup_of_new hnew]
  obtain ⟨w, hwmem, hwh⟩ := List.mem_map.mp hnew
  obtain ⟨hwin, htr⟩ := List.mem_filter.mp hwmem
  have hparts := (Bool.and_eq_true _ _).mp htr
  rw [← hwh]
  exact hparts.2

/-- C2 counterexample: a transform whose style write fails after the
snapshot leaves a cache-keyed non-member handle, and the next
reconciliation pass (which sees the window as still enumerated) leaves
it cache-keyed and still not a member: I1 does not hold after the pass
completes. -/
theorem c2_counterexample :
    let os : OS := ⟨[(1, ⟨0x00CF0001, 0x00020201, ⟨10, 20, 300, 400⟩⟩)], [(1, 42)],
      [(42, "app.exe")], [42]⟩
    let t := set_borderless_fullscreen 1920 1080 ⟨false, false, true, false, false⟩ os
      ⟨[], [], []⟩ 1 (some ⟨0, 0, 800, 600⟩)
    let pass := update_windows_lists 1920 1080 (fun _ => noFaults)
      [⟨1, 42, "app.exe", "t"⟩] t.os t.sh
    t.err = some TErr.styleWriteFailed ∧
    (lookupA 1 pass.sh.window_style_cache).isSome = true ∧
    1 ∉ pass.sh.fullscreen_hwnds :=
  ⟨rfl, rfl, by decide⟩

/-- C9: a handle that is in the membership set but has no cache entry
is untouched by the reapply loop, classified into the windowed
partition even though its window is enumerated, and removed from the
membership set by garbage collection; and the pass never removes a
cache entry whose handle is not in the membership set. -/
theorem c9_stale_member_gc (p q : Int) (faultOf : Nat → Faults)
    (windows : List WRecord) (os : OS) (sh : Shared) (h : Nat)
    (hmem : h ∈ sh.fullscreen_hwnds)
    (hnc : lookupA h sh.window_style_cache = none) :
    h ∉ (update_windows_lists p q faultOf windows os sh).sh.fullscreen_hwnds ∧
    (∀ w ∈ windows, w.hwnd = h →
      w ∈ (update_windows_lists p q faultOf windows os sh).windowed) ∧
    (∀ k v, lookupA k sh.window_style_cache = some v → k ∉ sh.fullscreen_hwnds →
      lookupA k
        (update_windows_lists p q faultOf windows os sh).sh.window_style_cache =
        some v) := by
  unfold update_windows_lists
  dsimp only
  obtain ⟨hm1, hnc1, -⟩ :=
    reapplyPids_member_uncached p q faultOf windows
      (sh.last_fullscreen_by_pid.map (fun kv => kv.1)) (os, sh) hmem hnc
  have htr : ∀ w : WRecord, w.hwnd = h →
      isTracked (reapplyPids p q faultOf windows
        (sh.last_fullscreen_by_pid.map (fun kv => kv.1)) (os, sh)).2 w = false := by
    intro w hwh
    unfold isTracked
    rw [hwh, hnc1]
    simp
  refine ⟨?_, ?_, ?_⟩
  · intro hcontra
    obtain ⟨-, hnew⟩ := gcPass_mem.mp hcontra
    obtain ⟨w, hwmem, hwh⟩ := List.mem_map.mp hnew
    obtain ⟨-, htrw⟩ := List.mem_filter.mp hwmem
    rw [htr w hwh] at htrw
    cases htrw
  · intro w hw hwh
    refine List.mem_filter.mpr ⟨hw, ?_⟩
    rw [htr w hwh]
    rfl
  · intro k v hv hkm
    obtain ⟨hv1, hkm1⟩ :=
      reapplyPids_cached_nonmember p q faultOf windows
        (sh.last_fullscreen_by_pid.map (fun kv => kv.1)) (os, sh) hv hkm
    rw [gcPass_cache_lookup_of_nonmember hkm1]
    exact hv1

/-- C9 witness: a concrete stale member handle (1) next to a cached
non-member handle (2). -/
theorem c9_stale_member_gc_witness :
    let os : OS := ⟨[(1, ⟨3, 4, ⟨0, 0, 2, 2⟩⟩), (2, ⟨7, 8, ⟨0, 0, 3, 3⟩⟩)], [], [], []⟩
    let sh : Shared := ⟨[(2, ⟨7, 8, ⟨0, 0, 3, 3⟩⟩)], [], [1]⟩
    let wrec : WRecord := ⟨1, 9, "x", "t"⟩
    1 ∉ (update_windows_lists 1920 1080 (fun _ => noFaults) [wrec] os sh).sh.fullscreen_hwnds ∧
    wrec ∈ (update_windows_lists 1920 1080 (fun _ => noFaults) [wrec] os sh).windowed ∧
    lookupA 2 (update_windows_lists 1920 1080 (fun _ => noFaults)
      [wrec] os sh).sh.window_style_cache = some ⟨7, 8, ⟨0, 0, 3, 3⟩⟩ := by
  obtain ⟨a, b, c⟩ := c9_stale_member_gc 1920 1080 (fun _ => noFaults)
    [⟨1, 9, "x", "t"⟩]
    ⟨[(1, ⟨3, 4, ⟨0, 0, 2, 2⟩⟩), (2, ⟨7, 8, ⟨0, 0, 3, 3⟩⟩)], [], [], []⟩
    ⟨[(2, ⟨7, 8, ⟨0, 0, 3, 3⟩⟩)], [], [1]⟩ 1 (by decide) rfl
  exact ⟨a, b ⟨1, 9, "x", "t"⟩ (by decide) rfl,
    c 2 ⟨7, 8, ⟨0, 0, 3, 3⟩⟩ rfl (by decide)⟩

/-- C2 witness: the amended theorem applied to a pass that keeps handle
1 fullscreen. -/
theorem c2_membership_implies_cached_witness :
    (lookupA 1 (update_windows_lists 1920 1080 (fun _ => noFaults)
      [⟨1, 7, "x", "t"⟩]
      ⟨[(1, ⟨3, 4, ⟨0, 0, 2, 2⟩⟩)], [], [], []⟩
      ⟨[(1, ⟨3, 4, ⟨0, 0, 2, 2⟩⟩)], [], [1]⟩).sh.window_style_cache).isSome :=
  c2_membership_implies_cached 1920 1080 (fun _ => noFaults)
    [⟨1, 7, "x", "t"⟩]
    ⟨[(1, ⟨3, 4, ⟨0, 0, 2, 2⟩⟩)], [], [], []⟩
    ⟨[(1, ⟨3, 4, ⟨0, 0, 2, 2⟩⟩)], [], [1]⟩ 1 (by decide)

/-- Consistency of the preference table during the reapply loop: when
the OS consistently maps the candidate's handle to its enumerated pid
and that pid to its enumerated process name, a loop body preserves any
preference binding (the upsert performed by a transform of a candidate
of pid `pid` rewrites that entry with the very same name and rect). -/
theorem reapplyStep_pref_stable {p q : Int} {f : Faults} {pid P : Nat}
    {w : WRecord} {st : OS × Shared} {nm : String} {r : Option Rect}
    (hwpid : w.pid = pid)
    (h1 : lookupA w.hwnd st.1.hwndPid = some w.pid)
    (h3 : lookupA w.pid st.1.pidName = some w.process_name)
    (hJ : lookupA P st.2.last_fullscreen_by_pid = some (nm, r)) :
    lookupA P (reapplyStep p q f pid w st).2.last_fullscreen_by_pid = some (nm, r) := by
  rcases reapplyStep_cases p q f pid w st with heq |
    ⟨hnmem, hnc, mr, en, hL, hg1, hg2, hcase⟩
  · rw [heq]; exact hJ
  · have key :
        lookupA P (set_borderless_fullscreen p q f st.1 st.2
          w.hwnd mr).sh.last_fullscreen_by_pid = some (nm, r) := by
      rcases xform_last_cases p q f st.1 st.2 w.hwnd mr with hxe |
        ⟨pid2, hp2, hnz, hxe⟩
      · rw [hxe]; exact hJ
      · rw [h1] at hp2
        injection hp2 with hp2
        have hres : resolveName st.1 pid2 = w.process_name := by
          unfold resolveName
          rw [← hp2, h3]
        by_cases hP : P = pid2
        · subst hP
          rw [← hp2, hwpid] at hJ
          rw [hL] at hJ
          injection hJ with hJ2
          have hen : en = nm := congrArg Prod.fst hJ2
          have hmr : mr = r := congrArg Prod.snd hJ2
          rw [hxe, lookupA_insertA_self, hres, ← hg2, hen, hmr]
        · rw [hxe, lookupA_insertA_ne hP]
          exact hJ
    rcases hcase with ⟨herr, heq⟩ | ⟨herr, heq⟩ <;> rw [heq] <;> dsimp only <;>
      exact key

/-- The per-handle tracking invariant through one reapply-loop body:
for a handle whose own transform (if any) is fault-free, being live is
preserved, and "member and cache-keyed, or non-member and uncached" is
preserved. -/
theorem reapplyStep_clean {x : Nat} (p q : Int) (f : Faults) (pid : Nat)
    (w : WRecord) (st : OS × Shared)
    (hfx : w.hwnd = x → f = noFaults)
    (hlive : (lookupA x st.1.windows).isSome)
    (hclean : (x ∈ st.2.fullscreen_hwnds ∧
        (lookupA x st.2.window_style_cache).isSome) ∨
      (x ∉ st.2.fullscreen_hwnds ∧ lookupA x st.2.window_style_cache = none)) :
    (lookupA x (reapplyStep p q f pid w st).1.windows).isSome ∧
    ((x ∈ (reapplyStep p q f pid w st).2.fullscreen_hwnds ∧
        (lookupA x (reapplyStep p q f pid w st).2.window_style_cache).isSome) ∨
      (x ∉ (reapplyStep p q f pid w st).2.fullscreen_hwnds ∧
        lookupA x (reapplyStep p q f pid w st).2.window_style_cache = none)) := by
  rcases reapplyStep_cases p q f pid w st with heq |
    ⟨hnmem, hnc, mr, en, hL, hg1, hg2, hcase⟩
  · rw [heq]; exact ⟨hlive, hclean⟩
  · by_cases hwx : w.hwnd = x
    · -- the candidate is x itself: the guards say x is a non-member,
      -- uncached; its transform is fault-free and the window is live,
      -- so it succeeds and x becomes a cache-keyed member
      subst hwx
      have hf : f = noFaults := hfx rfl
      subst hf
      obtain ⟨ws, hws⟩ := Option.isSome_iff_exists.mp hlive
      have hxok := xform_ok p q mr hnc hws
      rcases hcase with ⟨herr, heq⟩ | ⟨herr, heq⟩
      · rw [heq]
        dsimp only
        constructor
        · rw [hxok]
          dsimp only
          rw [lookupA_insertA_self]
          rfl
        · refine Or.inl ⟨self_mem_addSet _ _, ?_⟩
          rw [hxok]
          dsimp only
          rw [xformPidStep_cache]
          dsimp only
          rw [lookupA_insertA_self]
          rfl
      · rw [hxok] at herr
        exact absurd rfl herr
    · -- another candidate: x's window, cache binding and membership
      -- status are all preserved
      have hxw : x ≠ w.hwnd := fun e => hwx e.symm
      rcases hcase with ⟨herr, heq⟩ | ⟨herr, heq⟩ <;> rw [heq] <;> dsimp only <;>
        refine ⟨xform_os_isSome p q f st.1 st.2 mr hlive, ?_⟩
      · rcases hclean with ⟨hm, hs⟩ | ⟨hm, hn⟩
        · refine Or.inl ⟨?_, ?_⟩
          · rw [xform_mem_eq]
            exact mem_addSet_of_mem hm
          · obtain ⟨v, hv⟩ := Option.isSome_iff_exists.mp hs
            rw [xform_cache_lookup_some p q f st.1 st.2 mr hv]
            rfl
        · refine Or.inr ⟨?_, ?_⟩
          · rw [xform_mem_eq]
            intro hk
            rcases mem_addSet.mp hk with e | hk2
            · exact hxw e
            · exact hm hk2
          · rw [xform_cache_lookup_ne p q f st.1 st.2 mr hxw]
            exact hn
      · rcases hclean with ⟨hm, hs⟩ | ⟨hm, hn⟩
        · refine Or.inl ⟨?_, ?_⟩
          · rw [xform_mem_eq]
            exact hm
          · obtain ⟨v, hv⟩ := Option.isSome_iff_exists.mp hs
            rw [xform_cache_lookup_some p q f st.1 st.2 mr hv]
            rfl
        · refine Or.inr ⟨?_, ?_⟩
          · rw [xform_mem_eq]
            exact hm
          · rw [xform_cache_lookup_ne p q f st.1 st.2 mr hxw]
            exact hn

/-- The trigger: a candidate whose stored preference name is truthy and
matches, whose window is live, whose own transform is fault-free, and
which is cleanly tracked, is in the membership set after its loop body
runs. -/
theorem reapplyStep_trigger (p q : Int) (pid : Nat) (w : WRecord)
    (st : OS × Shared) {nm : String} {r : Option Rect}
    (hJ : lookupA pid st.2.last_fullscreen_by_pid = some (nm, r))
    (hnm : nm ≠ "") (hname : w.process_name = nm)
    (hlive : (lookupA w.hwnd st.1.windows).isSome)
    (hclean : (w.hwnd ∈ st.2.fullscreen_hwnds ∧
        (lookupA w.hwnd st.2.window_style_cache).isSome) ∨
      (w.hwnd ∉ st.2.fullscreen_hwnds ∧
        lookupA w.hwnd st.2.window_style_cache = none)) :
    w.hwnd ∈ (reapplyStep p q noFaults pid w st).2.fullscreen_hwnds := by
  rcases hclean with ⟨hm, -⟩ | ⟨hm, hcn⟩
  · exact reapplyStep_mem_mono p q noFaults pid w st hm
  · obtain ⟨os, sh⟩ := st
    obtain ⟨ws, hws⟩ := Option.isSome_iff_exists.mp hlive
    unfold reapplyStep
    dsimp only at hJ hm hcn hws ⊢
    rw [hJ]
    dsimp only
    rw [if_pos ⟨hname ▸ hnm, hname.symm⟩, if_pos ⟨hm, hcn⟩,
      xform_ok p q r hcn hws]
    dsimp only
    exact self_mem_addSet _ _

/-- A handle already in the membership set is never transformed by a
reapply-loop body: its OS window state is untouched and it stays a
member. -/
theorem reapplyStep_member_os {x : Nat} (p q : Int) (f : Faults) (pid : Nat)
    (w : WRecord) (st : OS × Shared) (hm : x ∈ st.2.fullscreen_hwnds) :
    lookupA x (reapplyStep p q f pid w st).1.windows = lookupA x st.1.windows ∧
    x ∈ (reapplyStep p q f pid w st).2.fullscreen_hwnds := by
  rcases reapplyStep_cases p q f pid w st with heq |
    ⟨hnmem, hnc, mr, en, hL, hg1, hg2, hcase⟩
  · rw [heq]; exact ⟨rfl, hm⟩
  · have hxw : x ≠ w.hwnd := by
      intro e
      exact hnmem (e ▸ hm)
    rcases hcase with ⟨herr, heq⟩ | ⟨herr, heq⟩ <;> rw [heq] <;> dsimp only
    · refine ⟨xform_os_lookup_ne p q f st.1 st.2 mr hxw, ?_⟩
      rw [xform_mem_eq]
      exact mem_addSet_of_mem hm
    · refine ⟨xform_os_lookup_ne p q f st.1 st.2 mr hxw, ?_⟩
      rw [xform_mem_eq]
      exact hm

theorem reapplyWins_os_maps (p q : Int) (faultOf : Nat → Faults) (pid : Nat)
    (ws : List WRecord) (st : OS × Shared) :
    (reapplyWins p q faultOf pid ws st).1.hwndPid = st.1.hwndPid ∧
    (reapplyWins p q faultOf pid ws st).1.pidName = st.1.pidName := by
  induction ws generalizing st with
  | nil => exact ⟨rfl, rfl⟩
  | cons w rest ih =>
      obtain ⟨s1, s2⟩ := reapplyStep_os_maps p q (faultOf w.hwnd) pid w st
      obtain ⟨g1, g2⟩ := ih (reapplyStep p q (faultOf w.hwnd) pid w st)
      exact ⟨g1.trans s1, g2.trans s2⟩

theorem reapplyPids_os_maps (p q : Int) (faultOf : Nat → Faults)
    (windows : List WRecord) (pids : List Nat) (st : OS × Shared) :
    (reapplyPids p q faultOf windows pids st).1.hwndPid = st.1.hwndPid ∧
    (reapplyPids p q faultOf windows pids st).1.pidName = st.1.pidName := by
  induction pids generalizing st with
  | nil => exact ⟨rfl, rfl⟩
  | cons pid rest ih =>
      obtain ⟨s1, s2⟩ := reapplyWins_os_maps p q faultOf pid
        (windows.filter (fun w => w.pid = pid)) st
      obtain ⟨g1, g2⟩ := ih _
      exact ⟨g1.trans s1, g2.trans s2⟩

theorem reapplyWins_pref_stable {p q : Int} {faultOf : Nat → Faults} {pid P : Nat}
    {ws : List WRecord} {st : OS × Shared} {nm : String} {r : Option Rect}
    (hall : ∀ u ∈ ws, u.pid = pid ∧ lookupA u.hwnd st.1.hwndPid = some u.pid ∧
      lookupA u.pid st.1.pidName = some u.process_name)
    (hJ : lookupA P st.2.last_fullscreen_by_pid = some (nm, r)) :
    lookupA P (reapplyWins p q faultOf pid ws st).2.last_fullscreen_by_pid =
      some (nm, r) := by
  induction ws generalizing st with
  | nil => exact hJ
  | cons w rest ih =>
      obtain ⟨hwp, h1, h3⟩ := hall w (List.mem_cons_self w rest)
      obtain ⟨m1, m2⟩ := reapplyStep_os_maps p q (faultOf w.hwnd) pid w st
      refine ih ?_ (reapplyStep_pref_stable hwp h1 h3 hJ)
      intro u hu
      obtain ⟨u1, u2, u3⟩ := hall u (List.mem_cons_of_mem w hu)
      exact ⟨u1, by rw [m1]; exact u2, by rw [m2]; exact u3⟩

theorem reapplyPids_pref_stable {p q : Int} {faultOf : Nat → Faults} {P : Nat}
    {windows : List WRecord} {pids : List Nat} {st : OS × Shared} {nm : String}
    {r : Option Rect}
    (hall : ∀ u ∈ windows, lookupA u.hwnd st.1.hwndPid = some u.pid ∧
      lookupA u.pid st.1.pidName = some u.process_name)
    (hJ : lookupA P st.2.last_fullscreen_by_pid = some (nm, r)) :
    lookupA P (reapplyPids p q faultOf windows pids st).2.last_fullscreen_by_pid =
      some (nm, r) := by
  induction pids generalizing st with
  | nil => exact hJ
  | cons pid rest ih =>
      obtain ⟨m1, m2⟩ := reapplyWins_os_maps p q faultOf pid
        (windows.filter (fun w => w.pid = pid)) st
      refine ih ?_ (reapplyWins_pref_stable ?_ hJ)
      · intro u hu
        obtain ⟨u2, u3⟩ := hall u hu
        exact ⟨by rw [m1]; exact u2, by rw [m2]; exact u3⟩
      · intro u hu
        obtain ⟨humem, hup⟩ := List.mem_filter.mp hu
        obtain ⟨u2, u3⟩ := hall u humem
        exact ⟨of_decide_eq_true hup, u2, u3⟩

theorem reapplyWins_clean {x : Nat} (p q : Int) (faultOf : Nat → Faults)
    (pid : Nat) (ws : List WRecord) (st : OS × Shared)
    (hfx : faultOf x = noFaults)
    (hlive : (lookupA x st.1.windows).isSome)
    (hclean : (x ∈ st.2.fullscreen_hwnds ∧
        (lookupA x st.2.window_style_cache).isSome) ∨
      (x ∉ st.2.fullscreen_hwnds ∧ lookupA x st.2.window_style_cache = none)) :
    (lookupA x (reapplyWins p q faultOf pid ws st).1.windows).isSome ∧
    ((x ∈ (reapplyWins p q faultOf pid ws st).2.fullscreen_hwnds ∧
        (lookupA x (reapplyWins p q faultOf pid ws st).2.window_style_cache).isSome) ∨
      (x ∉ (reapplyWins p q faultOf pid ws st).2.fullscreen_hwnds ∧
        lookupA x (reapplyWins p q faultOf pid ws st).2.window_style_cache = none)) := by
  induction ws generalizing st with
  | nil => exact ⟨hlive, hclean⟩
  | cons w rest ih =>
      obtain ⟨g1, g2⟩ := reapplyStep_clean p q (faultOf w.hwnd) pid w st
        (fun e => by rw [e]; exact hfx) hlive hclean
      exact ih _ g1 g2

theorem reapplyPids_clean {x : Nat} (p q : Int) (faultOf : Nat → Faults)
    (windows : List WRecord) (pids : List Nat) (st : OS × Shared)
    (hfx : faultOf x = noFaults)
    (hlive : (lookupA x st.1.windows).isSome)
    (hclean : (x ∈ st.2.fullscreen_hwnds ∧
        (lookupA x st.2.window_style_cache).isSome) ∨
      (x ∉ st.2.fullscreen_hwnds ∧ lookupA x st.2.window_style_cache = none)) :
    (lookupA x (reapplyPids p q faultOf windows pids st).1.windows).isSome ∧
    ((x ∈ (reapplyPids p q faultOf windows pids st).2.fullscreen_hwnds ∧
        (lookupA x
          (reapplyPids p q faultOf windows pids st).2.window_style_cache).isSome) ∨
      (x ∉ (reapplyPids p q faultOf windows pids st).2.fullscreen_hwnds ∧
        lookupA x
          (reapplyPids p q faultOf windows pids st).2.window_style_cache = none)) := by
  induction pids generalizing st with
  | nil => exact ⟨hlive, hclean⟩
  | cons pid rest ih =>
      obtain ⟨g1, g2⟩ := reapplyWins_clean p q faultOf pid
        (windows.filter (fun w => w.pid = pid)) st hfx hlive hclean
      exact ih _ g1 g2

theorem reapplyWins_member_os {x : Nat} (p q : Int) (faultOf : Nat → Faults)
    (pid : Nat) (ws : List WRecord) (st : OS × Shared)
    (hm : x ∈ st.2.fullscreen_hwnds) :
    lookupA x (reapplyWins p q faultOf pid ws st).1.windows =
      lookupA x st.1.windows ∧
    x ∈ (reapplyWins p q faultOf pid ws st).2.fullscreen_hwnds := by
  induction ws generalizing st with
  | nil => exact ⟨rfl, hm⟩
  | cons w rest ih =>
      obtain ⟨s1, s2⟩ := reapplyStep_member_os p q (faultOf w.hwnd) pid w st hm
      obtain ⟨g1, g2⟩ := ih _ s2
      exact ⟨g1.trans s1, g2⟩

theorem reapplyPids_member_os {x : Nat} (p q : Int) (faultOf : Nat → Faults)
    (windows : List WRecord) (pids : List Nat) (st : OS × Shared)
    (hm : x ∈ st.2.fullscreen_hwnds) :
    lookupA x (reapplyPids p q faultOf windows pids st).1.windows =
      lookupA x st.1.windows ∧
    x ∈ (reapplyPids p q faultOf windows pids st).2.fullscreen_hwnds := by
  induction pids generalizing st with
  | nil => exact ⟨rfl, hm⟩
  | cons pid rest ih =>
      obtain ⟨s1, s2⟩ := reapplyWins_member_os p q faultOf pid
        (windows.filter (fun w => w.pid = pid)) st hm
      obtain ⟨g1, g2⟩ := ih _ s2
      exact ⟨g1.trans s1, g2⟩

theorem reapplyWins_append (p q : Int) (faultOf : Nat → Faults) (pid : Nat)
    (l1 l2 : List WRecord) (st : OS × Shared) :
    reapplyWins p q faultOf pid (l1 ++ l2) st =
      reapplyWins p q faultOf pid l2 (reapplyWins p q faultOf pid l1 st) := by
  induction l1 generalizing st with
  | nil => rfl
  | cons u rest ih => exact ih _

theorem reapplyPids_append (p q : Int) (faultOf : Nat → Faults)
    (windows : List WRecord) (l1 l2 : List Nat) (st : OS × Shared) :
    reapplyPids p q faultOf windows (l1 ++ l2) st =
      reapplyPids p q faultOf windows l2 (reapplyPids p q faultOf windows l1 st) := by
  induction l1 generalizing st with
  | nil => rfl
  | cons pid rest ih => exact ih _

/-- Trigger through the inner loop: a matching clean live candidate of
the processed pid ends up in the membership set, whatever happens to
the other candidates. -/
theorem reapplyWins_trigger {p q : Int} {faultOf : Nat → Faults} {pid : Nat}
    {ws : List WRecord} {st : OS × Shared} {w : WRecord} {nm : String}
    {r : Option Rect}
    (hwin : w ∈ ws)
    (hall : ∀ u ∈ ws, u.pid = pid ∧ lookupA u.hwnd st.1.hwndPid = some u.pid ∧
      lookupA u.pid st.1.pidName = some u.process_name)
    (hfw : faultOf w.hwnd = noFaults)
    (hJ : lookupA pid st.2.last_fullscreen_by_pid = some (nm, r))
    (hnm : nm ≠ "") (hname : w.process_name = nm)
    (hlive : (lookupA w.hwnd st.1.windows).isSome)
    (hclean : (w.hwnd ∈ st.2.fullscreen_hwnds ∧
        (lookupA w.hwnd st.2.window_style_cache).isSome) ∨
      (w.hwnd ∉ st.2.fullscreen_hwnds ∧
        lookupA w.hwnd st.2.window_style_cache = none)) :
    w.hwnd ∈ (reapplyWins p q faultOf pid ws st).2.fullscreen_hwnds := by
  obtain ⟨l1, l2, rfl⟩ := List.append_of_mem hwin
  rw [reapplyWins_append]
  have hJ1 := @reapplyWins_pref_stable p q faultOf pid pid l1 st nm r
    (fun u hu => hall u (List.mem_append_left _ hu)) hJ
  obtain ⟨hlive1, hclean1⟩ := reapplyWins_clean p q faultOf pid l1 st hfw hlive hclean
  have hstep : w.hwnd ∈ (reapplyStep p q (faultOf w.hwnd) pid w
      (reapplyWins p q faultOf pid l1 st)).2.fullscreen_hwnds := by
    rw [hfw]
    exact reapplyStep_trigger p q pid w _ hJ1 hnm hname hlive1 hclean1
  exact reapplyWins_mem_mono p q faultOf pid l2 _ hstep

/-- Trigger through the whole reapply phase. -/
theorem reapplyPids_trigger {p q : Int} {faultOf : Nat → Faults}
    {windows : List WRecord} {pids : List Nat} {st : OS × Shared} {w : WRecord}
    {pid : Nat} {nm : String} {r : Option Rect}
    (hpid : pid ∈ pids) (hwin : w ∈ windows) (hwp : w.pid = pid)
    (hall : ∀ u ∈ windows, lookupA u.hwnd st.1.hwndPid = some u.pid ∧
      lookupA u.pid st.1.pidName = some u.process_name)
    (hfw : faultOf w.hwnd = noFaults)
    (hJ : lookupA pid st.2.last_fullscreen_by_pid = some (nm, r))
    (hnm : nm ≠ "") (hname : w.process_name = nm)
    (hlive : (lookupA w.hwnd st.1.windows).isSome)
    (hclean : (w.hwnd ∈ st.2.fullscreen_hwnds ∧
        (lookupA w.hwnd st.2.window_style_cache).isSome) ∨
      (w.hwnd ∉ st.2.fullscreen_hwnds ∧
        lookupA w.hwnd st.2.window_style_cache = none)) :
    w.hwnd ∈ (reapplyPids p q faultOf windows pids st).2.fullscreen_hwnds := by
  obtain ⟨l1, l2, rfl⟩ := List.append_of_mem hpid
  rw [reapplyPids_append]
  obtain ⟨m1, m2⟩ := reapplyPids_os_maps p q faultOf windows l1 st
  have hall1 : ∀ u ∈ windows,
      lookupA u.hwnd (reapplyPids p q faultOf windows l1 st).1.hwndPid = some u.pid ∧
      lookupA u.pid (reapplyPids p q faultOf windows l1 st).1.pidName =
        some u.process_name := by
    intro u hu
    obtain ⟨u2, u3⟩ := hall u hu
    exact ⟨by rw [m1]; exact u2, by rw [m2]; exact u3⟩
  have hJ1 := @reapplyPids_pref_stable p q faultOf pid windows l1 st nm r hall hJ
  obtain ⟨hlive1, hclean1⟩ := reapplyPids_clean p q faultOf windows l1 st hfw hlive hclean
  have hwfilter : w ∈ windows.filter (fun u => u.pid = pid) :=
    List.mem_filter.mpr ⟨hwin, decide_eq_true hwp⟩
  have hallf : ∀ u ∈ windows.filter (fun u => u.pid = pid), u.pid = pid ∧
      lookupA u.hwnd (reapplyPids p q faultOf windows l1 st).1.hwndPid = some u.pid ∧
      lookupA u.pid (reapplyPids p q faultOf windows l1 st).1.pidName =
        some u.process_name := by
    intro u hu
    obtain ⟨humem, hup⟩ := List.mem_filter.mp hu
    obtain ⟨u2, u3⟩ := hall1 u humem
    exact ⟨of_decide_eq_true hup, u2, u3⟩
  have hstep := reapplyWins_trigger (p := p) (q := q) hwfilter hallf hfw hJ1
    hnm hname hlive1 hclean1
  exact reapplyPids_mem_mono p q faultOf windows l2 _ hstep

/-- C6 (amended): during a reconciliation pass, provided the OS
consistently resolves each enumerated window's handle to its enumerated
pid and that pid to its enumerated name (so the mid-loop preference
re-write cannot change the stored name), every enumerated window of a
preference entry's pid whose name equals the stored truthy name and
whose handle is live, untracked and uncached is transformed and ends in
the fullscreen partition and the membership set — transform failures
for other candidates (arbitrary fault schedules on other handles) do
not prevent this; and a handle already in the membership set is never
re-transformed: its OS window state is untouched by the whole pass.
Without the name-consistency proviso the claim fails (see the
counterexample): a transform of an earlier candidate rewrites the
stored name with the freshly resolved one, which can suppress later
matching candidates. -/
theorem c6_reapplication (p q : Int) (faultOf : Nat → Faults)
    (windows : List WRecord) (os : OS) (sh : Shared) (w : WRecord) (pid : Nat)
    (nm : String) (r : Option Rect)
    (hwin : w ∈ windows) (hwp : w.pid = pid)
    (hpref : lookupA pid sh.last_fullscreen_by_pid = some (nm, r))
    (hnm : nm ≠ "") (hname : w.process_name = nm)
    (hall : ∀ u ∈ windows, lookupA u.hwnd os.hwndPid = some u.pid ∧
      lookupA u.pid os.pidName = some u.process_name)
    (hfw : faultOf w.hwnd = noFaults)
    (hlive : (lookupA w.hwnd os.windows).isSome)
    (hnmem : w.hwnd ∉ sh.fullscreen_hwnds)
    (hnc : lookupA w.hwnd sh.window_style_cache = none) :
    (w.hwnd ∈ (update_windows_lists p q faultOf windows os sh).sh.fullscreen_hwnds ∧
      w ∈ (update_windows_lists p q faultOf windows os sh).fullscreen) ∧
    (∀ x ∈ sh.fullscreen_hwnds,
      lookupA x (update_windows_lists p q faultOf windows os sh).os.windows =
        lookupA x os.windows) := by
  unfold update_windows_lists
  dsimp only
  have hpidmem : pid ∈ sh.last_fullscreen_by_pid.map (fun kv => kv.1) := by
    have hs : (lookupA pid sh.last_fullscreen_by_pid).isSome = true := by
      rw [hpref]; rfl
    exact lookupA_isSome_iff_mem_keys.mp hs
  have htrig := @reapplyPids_trigger p q faultOf windows
    (sh.last_fullscreen_by_pid.map (fun kv => kv.1)) (os, sh) w pid nm r
    hpidmem hwin hwp hall hfw hpref hnm hname hlive (Or.inr ⟨hnmem, hnc⟩)
  obtain ⟨-, hclean1⟩ := reapplyPids_clean p q faultOf windows
    (sh.last_fullscreen_by_pid.map (fun kv => kv.1)) (os, sh) hfw hlive
    (Or.inr ⟨hnmem, hnc⟩)
  have hsome1 : (lookupA w.hwnd (reapplyPids p q faultOf windows
      (sh.last_fullscreen_by_pid.map (fun kv => kv.1))
      (os, sh)).2.window_style_cache).isSome := by
    rcases hclean1 with ⟨-, hs⟩ | ⟨hnm2, -⟩
    · exact hs
    · exact absurd htrig hnm2
  have htr : isTracked (reapplyPids p q faultOf windows
      (sh.last_fullscreen_by_pid.map (fun kv => kv.1)) (os, sh)).2 w = true := by
    unfold isTracked
    rw [Bool.and_eq_true]
    exact ⟨decide_eq_true htrig, hsome1⟩
  have hwfs : w ∈ windows.filter (fun u => isTracked (reapplyPids p q faultOf windows
      (sh.last_fullscreen_by_pid.map (fun kv => kv.1)) (os, sh)).2 u) :=
    List.mem_filter.mpr ⟨hwin, htr⟩
  have hnew : w.hwnd ∈ (windows.filter (fun u => isTracked (reapplyPids p q faultOf
      windows (sh.last_fullscreen_by_pid.map (fun kv => kv.1)) (os, sh)).2 u)).map
      (fun u => u.hwnd) :=
    List.mem_map.mpr ⟨w, hwfs, rfl⟩
  refine ⟨⟨gcPass_mem.mpr ⟨htrig, hnew⟩, hwfs⟩, ?_⟩
  intro x hx
  exact (reapplyPids_member_os p q faultOf windows
    (sh.last_fullscreen_by_pid.map (fun kv => kv.1)) (os, sh) hx).1

/-- C6 counterexample: two enumerated windows of the same pid both
match the pre-pass preference entry (pid 42 ↦ "app.exe") and are
untracked and uncached, but transforming the first one re-resolves the
process name — here psutil fails, yielding "Unknown" — and upserts it
into the preference entry, so the second candidate no longer matches
and is never transformed: its window state, cache and membership are
untouched at the end of the pass. -/
theorem c6_counterexample :
    let os : OS := ⟨[(1, ⟨0x00CF0000, 0, ⟨0, 0, 5, 5⟩⟩),
        (2, ⟨0x00CF0000, 0, ⟨0, 0, 6, 6⟩⟩)],
      [(1, 42), (2, 42)], [], [42]⟩
    let sh : Shared := ⟨[], [(42, ("app.exe", some ⟨0, 0, 800, 600⟩))], []⟩
    let pass := update_windows_lists 1920 1080 (fun _ => noFaults)
      [⟨1, 42, "app.exe", "t"⟩, ⟨2, 42, "app.exe", "t"⟩] os sh
    2 ∉ pass.sh.fullscreen_hwnds ∧
    lookupA 2 pass.sh.window_style_cache = none ∧
    lookupA 2 pass.os.windows = some ⟨0x00CF0000, 0, ⟨0, 0, 6, 6⟩⟩ ∧
    pass.sh.last_fullscreen_by_pid =
      [(42, ("Unknown", some ⟨0, 0, 800, 600⟩))] ∧
    1 ∈ pass.sh.fullscreen_hwnds :=
  ⟨by decide, rfl, rfl, rfl, by decide⟩

/-- C6 witness: the amended theorem applied to a concrete consistent
scenario where handle 2 is reapplied. -/
theorem c6_reapplication_witness :
    2 ∈ (update_windows_lists 1920 1080 (fun _ => noFaults)
      [⟨2, 42, "app.exe", "t"⟩]
      ⟨[(2, ⟨0x00CF0000, 0, ⟨0, 0, 6, 6⟩⟩)], [(2, 42)], [(42, "app.exe")], [42]⟩
      ⟨[], [(42, ("app.exe", some ⟨0, 0, 800, 600⟩))], []⟩).sh.fullscreen_hwnds :=
  (c6_reapplication 1920 1080 (fun _ => noFaults) [⟨2, 42, "app.exe", "t"⟩]
    ⟨[(2, ⟨0x00CF0000, 0, ⟨0, 0, 6, 6⟩⟩)], [(2, 42)], [(42, "app.exe")], [42]⟩
    ⟨[], [(42, ("app.exe", some ⟨0, 0, 800, 600⟩))], []⟩
    ⟨2, 42, "app.exe", "t"⟩ 42 "app.exe" (some ⟨0, 0, 800, 600⟩)
    (by decide) rfl rfl (by decide) rfl (by decide) rfl rfl (by decide) rfl).1.1
